import Mathlib

/-!
# Ironic database convergence

A shallow embedding of the database part of the ironic operator:

* `api/v1alpha1/ironicdatabase_webhook.go`: the admission validator
  (`validateDatabase`, `ValidateCreate`, `ValidateUpdate`, `ValidateDelete`);
* `pkg/ironic/utils.go`: the status classifier (`getDeploymentStatus`);
* `pkg/ironic/database.go`: the pod template, the Deployment and Service
  convergence, the endpoint list and the facade (`EnsureDatabase`,
  `RemoveDatabase`).

Conventions of the embedding:

* a Go `error` is an `Option String` (`none` is `nil`, `some msg` carries the text);
* a Go slice is a `List`, the `nil` slice being `[]`;
* a Go `map[string]string` is an optional association list (`none` is the `nil` map);
* a Go pointer to a struct or to a `bool` is an `Option`;
* Kubernetes string-typed enumerations (`DeploymentConditionType`,
  `ConditionStatus`, `Protocol`, `ServiceType`) are `String`s with the library's
  constant values;
* struct fields that the code neither reads nor writes are left out;
* the resource store is a state of an arbitrary type `σ`; every
  `controllerutil.CreateOrUpdate` call is recorded in a call log next to it;
* where a statement needs a store that keeps what is submitted, `Store` is an
  in-memory one and `createOrUpdate` follows `controllerutil.CreateOrUpdate` on it;
* calls to the logger are not modelled.
-/

namespace Ironic

/-! ## Go values -/

/-- A Go `error`: `none` is `nil`, `some msg` is a non-nil error with text `msg`. -/
abbrev GoError := Option String

/-- A Go `map[string]string`: `none` is the `nil` map, `some kvs` holds the entries
as an association list with one pair per key. -/
abbrev GoMap := Option (List (String × String))

/-- The value stored under key `k`, as `m[k]` with the comma-ok form. -/
def mapLookup (m : GoMap) (k : String) : Option String :=
  match m with
  | none => none
  | some kvs => (kvs.find? (fun p => decide (p.1 = k))).map Prod.snd

/-- The assignment `m[k] = v` on a non-nil map. -/
def mapSet (kvs : List (String × String)) (k v : String) : List (String × String) :=
  (k, v) :: kvs.filter (fun p => decide (p.1 ≠ k))

/-- The UTF-8 bytes of a string, the representation Go compares and indexes. -/
def goBytes (s : String) : List Nat :=
  s.data.flatMap (fun c => (String.utf8EncodeChar c).map UInt8.toNat)

/-- Lexicographic `<` on byte sequences. -/
def bytesLess : List Nat → List Nat → Bool
  | _, [] => false
  | [], _ :: _ => true
  | a :: as, b :: bs => decide (a < b) || (decide (a = b) && bytesLess as bs)

/-- Go's built-in `<` on strings: byte-wise lexicographic comparison. -/
def stringLess (a b : String) : Bool :=
  bytesLess (goBytes a) (goBytes b)

/-- Go's `sort.Strings`: sorts in increasing order under the built-in `<`.
An element is placed before the first one that is not smaller than it. -/
def sortStrings (xs : List String) : List String :=
  List.insertionSort (fun a b => stringLess b a = false) xs

/-- Go's `net.JoinHostPort`: `host:port`, with the host in square brackets when it
contains a colon (byte 58), as a literal IPv6 address does. -/
def JoinHostPort (host port : String) : String :=
  if 58 ∈ goBytes host then "[" ++ host ++ "]:" ++ port else host ++ ":" ++ port

/-! ## Kubernetes objects -/

/-- The `metav1.Time` of an object, reduced to its instant; `0` is the zero time. -/
structure Time where
  instant : Nat := 0
deriving DecidableEq, Repr

/-- The method `IsZero` of `metav1.Time`. -/
def Time.IsZero (t : Time) : Bool :=
  decide (t.instant = 0)

/-- A `metav1.OwnerReference`. -/
structure OwnerReference where
  APIVersion : String := ""
  Kind : String := ""
  Name : String := ""
  UID : String := ""
  Controller : Option Bool := none
  BlockOwnerDeletion : Option Bool := none
deriving DecidableEq, Repr

/-- A `metav1.ObjectMeta`. -/
structure ObjectMeta where
  Name : String := ""
  Namespace : String := ""
  UID : String := ""
  Generation : Int := 0
  CreationTimestamp : Time := {}
  Labels : GoMap := none
  OwnerReferences : List OwnerReference := []
deriving DecidableEq, Repr

/-- A `corev1.SecretKeySelector`; `Name` is the embedded `LocalObjectReference.Name`. -/
structure SecretKeySelector where
  Name : String := ""
  Key : String := ""
deriving DecidableEq, Repr

/-- A `corev1.EnvVarSource`. -/
structure EnvVarSource where
  SecretKeyRef : Option SecretKeySelector := none
deriving DecidableEq, Repr

/-- A `corev1.EnvVar`. -/
structure EnvVar where
  Name : String := ""
  Value : String := ""
  ValueFrom : Option EnvVarSource := none
deriving DecidableEq, Repr

/-- A `corev1.SecretVolumeSource`. -/
structure SecretVolumeSource where
  SecretName : String := ""
deriving DecidableEq, Repr

/-- A `corev1.VolumeSource`. -/
structure VolumeSource where
  Secret : Option SecretVolumeSource := none
deriving DecidableEq, Repr

/-- A `corev1.Volume`. -/
structure Volume where
  Name : String := ""
  VolumeSource : VolumeSource := {}
deriving DecidableEq, Repr

/-- A `corev1.VolumeMount`. -/
structure VolumeMount where
  Name : String := ""
  ReadOnly : Bool := false
  MountPath : String := ""
deriving DecidableEq, Repr

/-- A `corev1.SecurityContext`. -/
structure SecurityContext where
  Privileged : Option Bool := none
  RunAsNonRoot : Option Bool := none
deriving DecidableEq, Repr

/-- A `corev1.Container`. -/
structure Container where
  Name : String := ""
  Image : String := ""
  Env : List EnvVar := []
  VolumeMounts : List VolumeMount := []
  SecurityContext : Option SecurityContext := none
deriving DecidableEq, Repr

/-- A `corev1.PodSpec`. -/
structure PodSpec where
  Volumes : List Volume := []
  Containers : List Container := []
deriving DecidableEq, Repr

/-- A `corev1.PodTemplateSpec`. -/
structure PodTemplateSpec where
  ObjectMeta : ObjectMeta := {}
  Spec : PodSpec := {}
deriving DecidableEq, Repr

/-- A `metav1.LabelSelector`. -/
structure LabelSelector where
  MatchLabels : GoMap := none
deriving DecidableEq, Repr

/-- An `appsv1.DeploymentSpec`. -/
structure DeploymentSpec where
  Selector : Option LabelSelector := none
  Template : PodTemplateSpec := {}
deriving DecidableEq, Repr

/-- An `appsv1.DeploymentCondition`; `Type_` is the Go field `Type`. -/
structure DeploymentCondition where
  Type_ : String := ""
  Status : String := ""
  Message : String := ""
deriving DecidableEq, Repr

/-- An `appsv1.DeploymentStatus`. -/
structure DeploymentStatus where
  ObservedGeneration : Int := 0
  Conditions : List DeploymentCondition := []
deriving DecidableEq, Repr

/-- An `appsv1.Deployment`. -/
structure Deployment where
  ObjectMeta : ObjectMeta := {}
  Spec : DeploymentSpec := {}
  Status : DeploymentStatus := {}
deriving DecidableEq, Repr

/-- A `corev1.ServicePort`. -/
structure ServicePort where
  Protocol : String := ""
  Port : Int := 0
deriving DecidableEq, Repr

/-- A `corev1.ServiceSpec`; `Type_` is the Go field `Type`. -/
structure ServiceSpec where
  Ports : List ServicePort := []
  Selector : GoMap := none
  ClusterIPs : List String := []
  Type_ : String := ""
deriving DecidableEq, Repr

/-- A `corev1.Service`. -/
structure Service where
  ObjectMeta : ObjectMeta := {}
  Spec : ServiceSpec := {}
deriving DecidableEq, Repr

/-- The constant `appsv1.DeploymentAvailable`. -/
def DeploymentAvailable : String := "Available"

/-- The constant `appsv1.DeploymentReplicaFailure`. -/
def DeploymentReplicaFailure : String := "ReplicaFailure"

/-- The constant `corev1.ConditionTrue`. -/
def ConditionTrue : String := "True"

/-- The constant `corev1.ProtocolTCP`. -/
def ProtocolTCP : String := "TCP"

/-- The constant `corev1.ServiceTypeClusterIP`. -/
def ServiceTypeClusterIP : String := "ClusterIP"

/-! ## The desired-state resource -/

/-- The `IronicDatabaseSpec` of the API package, with the four fields the code reads. -/
structure IronicDatabaseSpec where
  Image : String := ""
  CredentialsSecretName : String := ""
  TLSSecretName : String := ""
  ExternalIP : String := ""
deriving DecidableEq, Repr

/-- The `IronicDatabase` resource of the API package. -/
structure IronicDatabase where
  ObjectMeta : ObjectMeta := {}
  Spec : IronicDatabaseSpec := {}
deriving DecidableEq, Repr

/-- Modelled from the spec: the declaration of `IronicStatusConditionType` and of its
constants `IronicStatusProgressing` and `IronicStatusAvailable` (API package, types
file). The spec gives the status as an enumeration of the two values `Progressing`
and `Available`. -/
inductive IronicStatusConditionType where
  | IronicStatusProgressing
  | IronicStatusAvailable
deriving DecidableEq, Repr

export IronicStatusConditionType (IronicStatusProgressing IronicStatusAvailable)

/-! ## The admission validator (`ironicdatabase_webhook.go`) -/

/-- The function `validateDatabase`; `old` is `none` for the `nil` pointer. -/
def validateDatabase (db : IronicDatabaseSpec) (_old : Option IronicDatabaseSpec) : GoError :=
  if db.ExternalIP ≠ "" ∧ db.CredentialsSecretName = "" then
    some "external database requires credentials"
  else
    none

/-- The method `ValidateCreate`. -/
def ValidateCreate (r : IronicDatabase) : GoError :=
  validateDatabase r.Spec none

/-- The method `ValidateUpdate`; `old` is the previous object, an `IronicDatabase`. -/
def ValidateUpdate (r : IronicDatabase) (old : IronicDatabase) : GoError :=
  validateDatabase r.Spec (some old.Spec)

/-- The method `ValidateDelete`. -/
def ValidateDelete (_r : IronicDatabase) : GoError :=
  none

/-! ## The status classifier (`utils.go`) -/

/-- The condition loop of `getDeploymentStatus` together with the final test of
`available`; the second argument is the value of `available` on entry. -/
def scanConditions : List DeploymentCondition → Bool → IronicStatusConditionType × GoError
  | [], available =>
    if available then (IronicStatusAvailable, none) else (IronicStatusProgressing, none)
  | cond :: rest, available =>
    let available :=
      if cond.Type_ = DeploymentAvailable ∧ cond.Status = ConditionTrue then true else available
    if cond.Type_ = DeploymentReplicaFailure ∧ cond.Status = ConditionTrue then
      (IronicStatusProgressing, some ("deployment failed: " ++ cond.Message))
    else
      scanConditions rest available

/-- The function `getDeploymentStatus`. -/
def getDeploymentStatus (deploy : Deployment) : IronicStatusConditionType × GoError :=
  if deploy.Status.ObservedGeneration ≠ deploy.ObjectMeta.Generation then
    (IronicStatusProgressing, none)
  else
    scanConditions deploy.Status.Conditions false

/-! ## Constants and the pod template (`database.go`)

The constant `IronicOperatorLabel` belongs to the API package; its value is a
parameter of every definition that uses it. -/

/-- The constant `DatabaseServiceName`. -/
def DatabaseServiceName : String := "metal3-database"

/-- The constant `databaseAppName`. -/
def databaseAppName : String := "ironic-database"

/-- The constant `databasePort`. -/
def databasePort : Nat := 3306

/-- The constant `databaseUser`. -/
def databaseUser : Nat := 27

/-- The function `deploymentName`. -/
def deploymentName (db : IronicDatabase) : String :=
  db.ObjectMeta.Name ++ "-database"

/-- The function `databasePasswordEnvVar`. -/
def databasePasswordEnvVar (db : IronicDatabase) : EnvVar :=
  { Name := "MARIADB_PASSWORD"
    ValueFrom := some { SecretKeyRef := some { Name := db.Spec.CredentialsSecretName
                                               Key := "password" } } }

/-- The function `newDatabasePodTemplate`. -/
def newDatabasePodTemplate (IronicOperatorLabel : String) (db : IronicDatabase) :
    PodTemplateSpec :=
  let volumes : List Volume := []
  let mounts : List VolumeMount := []
  let volumes :=
    if db.Spec.TLSSecretName ≠ "" then
      volumes ++ [{ Name := "cert-mariadb"
                    VolumeSource := { Secret := some { SecretName := db.Spec.TLSSecretName } } }]
    else volumes
  let mounts :=
    if db.Spec.TLSSecretName ≠ "" then
      mounts ++ [{ Name := "cert-mariadb", MountPath := "/certs/mariadb" }]
    else mounts
  let containers : List Container :=
    [{ Name := "mariadb"
       Image := db.Spec.Image
       Env := [databasePasswordEnvVar db,
               { Name := "RESTART_CONTAINER_CERTIFICATE_UPDATED", Value := "true" }]
       VolumeMounts := mounts
       SecurityContext := some { Privileged := some true, RunAsNonRoot := some false } }]
  { ObjectMeta := { Labels := some [(IronicOperatorLabel, databaseAppName)] }
    Spec := { Containers := containers, Volumes := volumes } }

/-! ## The store and the controller context -/

/-- One `controllerutil.CreateOrUpdate` call, with the kind, namespace and name of
the object it was issued for. -/
inductive StoreCall where
  | deployment (ns name : String)
  | service (ns name : String)
deriving DecidableEq, Repr

/-- The resource store client. `controllerutil.CreateOrUpdate` takes the store, the
object (carrying name and namespace) and the mutate function, and leaves a new store,
the object as the call left it, and an error. Its behaviour is arbitrary. -/
structure Client (σ : Type) where
  CreateOrUpdateDeployment :
    σ → Deployment → (Deployment → Deployment × GoError) → σ × Deployment × GoError
  CreateOrUpdateService :
    σ → Service → (Service → Service × GoError) → σ × Service × GoError

/-- The `ControllerContext`. `SetControllerReference` stands for
`controllerutil.SetControllerReference` applied with the context's scheme: given the
owner and the metadata of the dependent it returns the new metadata and an error. -/
structure ControllerContext (σ : Type) where
  Client : Client σ
  SetControllerReference : IronicDatabase → ObjectMeta → ObjectMeta × GoError

/-- The store together with the log of the create-or-update calls issued so far. -/
structure World (σ : Type) where
  store : σ
  calls : List StoreCall

/-! ## Deployment convergence -/

/-- The Deployment object that `ensureDatabaseDeployment` starts from. -/
def newDeployment (db : IronicDatabase) : Deployment :=
  { ObjectMeta := { Name := deploymentName db, Namespace := db.ObjectMeta.Namespace } }

/-- The mutate function that `ensureDatabaseDeployment` hands to create-or-update,
as a function of the Deployment it is applied to. -/
def deploymentMutate {σ : Type} (IronicOperatorLabel : String) (cctx : ControllerContext σ)
    (db : IronicDatabase) (deploy : Deployment) : Deployment × GoError :=
  let deploy :=
    if deploy.ObjectMeta.CreationTimestamp.IsZero then
      let matchLabels : GoMap := some [(IronicOperatorLabel, databaseAppName)]
      { deploy with Spec := { deploy.Spec with Selector := some { MatchLabels := matchLabels } } }
    else deploy
  let deploy :=
    { deploy with Spec := { deploy.Spec with
                            Template := newDatabasePodTemplate IronicOperatorLabel db } }
  let r := cctx.SetControllerReference db deploy.ObjectMeta
  ({ deploy with ObjectMeta := r.1 }, r.2)

/-- What the store answers to the create-or-update of the Deployment. -/
def deploymentOutcome {σ : Type} (IronicOperatorLabel : String) (cctx : ControllerContext σ)
    (db : IronicDatabase) (w : World σ) : σ × Deployment × GoError :=
  cctx.Client.CreateOrUpdateDeployment w.store (newDeployment db)
    (deploymentMutate IronicOperatorLabel cctx db)

/-- The function `ensureDatabaseDeployment`. -/
def ensureDatabaseDeployment {σ : Type} (IronicOperatorLabel : String)
    (cctx : ControllerContext σ) (db : IronicDatabase) (w : World σ) :
    World σ × IronicStatusConditionType × GoError :=
  let deploy := newDeployment db
  let out := deploymentOutcome IronicOperatorLabel cctx db w
  let w : World σ :=
    { store := out.1
      calls := w.calls ++ [StoreCall.deployment deploy.ObjectMeta.Namespace deploy.ObjectMeta.Name] }
  let deploy := out.2.1
  let err := out.2.2
  if err ≠ none then
    (w, IronicStatusProgressing, err)
  else
    (w, getDeploymentStatus deploy)

/-! ## Service convergence -/

/-- The function `buildEndpoints`. -/
def buildEndpoints (ips : List String) : List String :=
  let port := toString databasePort
  let endpoints := ips.foldl (fun endpoints ip => endpoints ++ [JoinHostPort ip port]) []
  sortStrings endpoints

/-- The Service object that `ensureDatabaseService` starts from. -/
def newService (db : IronicDatabase) : Service :=
  { ObjectMeta := { Name := deploymentName db, Namespace := db.ObjectMeta.Namespace } }

/-- The mutate function that `ensureDatabaseService` hands to create-or-update,
as a function of the Service it is applied to. -/
def serviceMutate {σ : Type} (IronicOperatorLabel : String) (cctx : ControllerContext σ)
    (db : IronicDatabase) (service : Service) : Service × GoError :=
  let labels : List (String × String) :=
    match service.ObjectMeta.Labels with
    | none => []
    | some kvs => kvs
  let labels := mapSet labels IronicOperatorLabel databaseAppName
  let service := { service with ObjectMeta := { service.ObjectMeta with Labels := some labels } }
  let service :=
    { service with Spec := { service.Spec with
                             Selector := some [(IronicOperatorLabel, databaseAppName)] } }
  let service :=
    { service with Spec := { service.Spec with
                             Ports := [{ Protocol := ProtocolTCP, Port := databasePort }] } }
  let service := { service with Spec := { service.Spec with Type_ := ServiceTypeClusterIP } }
  let r := cctx.SetControllerReference db service.ObjectMeta
  ({ service with ObjectMeta := r.1 }, r.2)

/-- What the store answers to the create-or-update of the Service. -/
def serviceOutcome {σ : Type} (IronicOperatorLabel : String) (cctx : ControllerContext σ)
    (db : IronicDatabase) (w : World σ) : σ × Service × GoError :=
  cctx.Client.CreateOrUpdateService w.store (newService db)
    (serviceMutate IronicOperatorLabel cctx db)

/-- The function `ensureDatabaseService`. -/
def ensureDatabaseService {σ : Type} (IronicOperatorLabel : String)
    (cctx : ControllerContext σ) (db : IronicDatabase) (w : World σ) :
    World σ × IronicStatusConditionType × List String × GoError :=
  let service := newService db
  let out := serviceOutcome IronicOperatorLabel cctx db w
  let w : World σ :=
    { store := out.1
      calls := w.calls ++ [StoreCall.service service.ObjectMeta.Namespace service.ObjectMeta.Name] }
  let service := out.2.1
  let err := out.2.2
  if err ≠ none ∨ service.Spec.ClusterIPs.length = 0 then
    (w, IronicStatusProgressing, [], err)
  else
    (w, IronicStatusAvailable, buildEndpoints service.Spec.ClusterIPs, none)

/-! ## The facade -/

/-- The function `EnsureDatabase`; the named result `endpoints` is still `nil` at the
early return. -/
def EnsureDatabase {σ : Type} (IronicOperatorLabel : String) (cctx : ControllerContext σ)
    (db : IronicDatabase) (w : World σ) :
    World σ × IronicStatusConditionType × List String × GoError :=
  let r := ensureDatabaseDeployment IronicOperatorLabel cctx db w
  let status := r.2.1
  let err := r.2.2
  if err ≠ none ∨ status ≠ IronicStatusAvailable then
    (r.1, status, [], err)
  else
    ensureDatabaseService IronicOperatorLabel cctx db r.1

/-- The function `RemoveDatabase`. -/
def RemoveDatabase {σ : Type} (_cctx : ControllerContext σ) (_db : IronicDatabase)
    (w : World σ) : World σ × GoError :=
  (w, none)

/-! ## Concrete objects for running the definitions -/

/-- The controller reference that owner `db` puts on a dependent. -/
def controllerRef (db : IronicDatabase) : OwnerReference :=
  { APIVersion := "metal3.io/v1alpha1"
    Kind := "IronicDatabase"
    Name := db.ObjectMeta.Name
    UID := db.ObjectMeta.UID
    Controller := some true
    BlockOwnerDeletion := some true }

/-- An owner-reference mechanism for concrete runs: the dependent gets the controller
reference of `db` in place of any reference to the same owner; it never fails. -/
def upsertControllerRef (db : IronicDatabase) (m : ObjectMeta) : ObjectMeta × GoError :=
  ({ m with OwnerReferences :=
      m.OwnerReferences.filter (fun r => decide (r.UID ≠ db.ObjectMeta.UID)) ++ [controllerRef db] },
   none)

/-- A store for concrete runs. Create-or-update applies the mutate function to the
submitted object; when the mutate function fails, or the store is set to fail with
`derr` (Deployment) or `serr` (Service), the error is returned; otherwise the platform
fills in generation `gen` and status `status` on the Deployment and the cluster
addresses `ips` on the Service. -/
def scriptedClient (gen : Int) (status : DeploymentStatus) (derr : GoError)
    (ips : List String) (serr : GoError) : Client Unit where
  CreateOrUpdateDeployment := fun s d f =>
    let r := f d
    if r.2 ≠ none then (s, r.1, r.2)
    else if derr ≠ none then (s, r.1, derr)
    else (s, { r.1 with ObjectMeta := { r.1.ObjectMeta with Generation := gen }
                        Status := status }, none)
  CreateOrUpdateService := fun s svc f =>
    let r := f svc
    if r.2 ≠ none then (s, r.1, r.2)
    else if serr ≠ none then (s, r.1, serr)
    else (s, { r.1 with Spec := { r.1.Spec with ClusterIPs := ips } }, none)

/-- A controller context over `scriptedClient`. -/
def scriptedContext (gen : Int) (status : DeploymentStatus) (derr : GoError)
    (ips : List String) (serr : GoError) : ControllerContext Unit :=
  { Client := scriptedClient gen status derr ips serr
    SetControllerReference := upsertControllerRef }

/-- A database resource named `ironic` in namespace `metal3`. -/
def sampleDatabase : IronicDatabase :=
  { ObjectMeta := { Name := "ironic", Namespace := "metal3", UID := "uid-1" }
    Spec := { Image := "quay.io/metal3-io/mariadb", CredentialsSecretName := "db-secret" } }

/-- The world before any call: an empty call log. -/
def freshWorld : World Unit :=
  { store := (), calls := [] }

/-- A Deployment status reporting availability. -/
def availableStatus : DeploymentStatus :=
  { ObservedGeneration := 1
    Conditions := [{ Type_ := "Progressing", Status := "True", Message := "rolled out" },
                   { Type_ := "Available", Status := "True", Message := "minimum availability" }] }

/-- A replica-failure condition with status `True`. -/
def quotaFailure : DeploymentCondition :=
  { Type_ := "ReplicaFailure", Status := "True", Message := "quota exceeded" }

/-- A Deployment at generation 1, observed, that reports availability and, after it,
two replica failures. -/
def failedDeployment : Deployment :=
  { ObjectMeta := { Name := "ironic-database", Generation := 1 }
    Status := { ObservedGeneration := 1
                Conditions := [{ Type_ := "Available", Status := "True", Message := "ok" },
                               quotaFailure,
                               { Type_ := "ReplicaFailure", Status := "True",
                                 Message := "image pull failed" }] } }

/-- The Deployment `failedDeployment` after a change of its spec that the platform
has not observed yet: generation 2, observed generation 1. -/
def laggingFailedDeployment : Deployment :=
  { failedDeployment with
    ObjectMeta := { failedDeployment.ObjectMeta with Generation := 2 } }

/-- The database `sampleDatabase` with a TLS secret. -/
def tlsDatabase : IronicDatabase :=
  { sampleDatabase with Spec := { sampleDatabase.Spec with TLSSecretName := "ironic-tls" } }

/-- A pod template with its volumes and the volume mounts of its containers removed:
what is left is every part of the template that is neither a volume nor a mount. -/
def stripVolumes (t : PodTemplateSpec) : PodTemplateSpec :=
  { t with Spec := { t.Spec with
      Volumes := []
      Containers := t.Spec.Containers.map (fun c => { c with VolumeMounts := [] }) } }

/-! ## The owner-reference mechanism of controller-runtime

`controllerutil.SetControllerReference` reaches the dependent through the
`metav1.Object` interface and calls `SetOwnerReferences` only: of the metadata it
changes the owner-reference list and nothing else. -/

/-- An owner-reference mechanism that acts on the owner-reference list of the dependent
by `g` and leaves the rest of the metadata as it is. -/
def ownerRefMechanism (g : IronicDatabase → List OwnerReference → List OwnerReference × GoError)
    (db : IronicDatabase) (m : ObjectMeta) : ObjectMeta × GoError :=
  ({ m with OwnerReferences := (g db m.OwnerReferences).1 }, (g db m.OwnerReferences).2)

/-- The group of `schema.ParseGroupVersion`: empty when the string has no slash, the
part before the slash when it has one, and a parse error (`none`) otherwise. -/
def parseGroup (apiVersion : String) : Option String :=
  match apiVersion.data.count '/' with
  | 0 => some ""
  | 1 => some (String.mk (apiVersion.data.takeWhile (fun c => decide (c ≠ '/'))))
  | _ => none

/-- The test `referSameObject` of controller-runtime: both API versions parse, and
group, kind and name agree. -/
def referSameObject (a b : OwnerReference) : Bool :=
  match parseGroup a.APIVersion, parseGroup b.APIVersion with
  | some ga, some gb => decide (ga = gb ∧ a.Kind = b.Kind ∧ a.Name = b.Name)
  | _, _ => false

/-- The function `upsertOwnerRef` of controller-runtime: the first reference to the same
object is replaced by `ref`; when there is none, `ref` is appended. -/
def upsertOwnerRef (ref : OwnerReference) : List OwnerReference → List OwnerReference
  | [] => [ref]
  | r :: rest => if referSameObject r ref then ref :: rest else r :: upsertOwnerRef ref rest

/-- The owner-reference attachment as an upsert of the controller reference of `db`. -/
def upsertOwners (db : IronicDatabase) (owners : List OwnerReference) :
    List OwnerReference × GoError :=
  (upsertOwnerRef (controllerRef db) owners, none)

/-! ## An in-memory store

A store in which nothing changes but through create-or-update: no other client, no
platform controller writing status or addresses. -/

/-- The stored Deployments and Services, and a clock for creation timestamps. -/
structure Store where
  deployments : List Deployment := []
  services : List Service := []
  clock : Nat := 0
deriving DecidableEq, Repr

/-- The function `controllerutil.CreateOrUpdate` over a list of stored objects. The
object is looked up by its key (namespace and name). When it is not found, the mutate
function `f` is applied to `obj` and the result is created, stamped by the platform.
When it is found, `f` is applied to the stored object and the result is written back
unless it equals the stored object. An error of `f`, or a change of the key by `f`,
ends the call before anything is written. -/
def createOrUpdate {α : Type} [DecidableEq α] (key : α → String × String)
    (stamp : Nat → α → α) (stored : List α) (clock : Nat) (obj : α)
    (f : α → α × GoError) : (List α × Nat) × α × GoError :=
  match stored.find? (fun o => decide (key o = key obj)) with
  | none =>
    let r := f obj
    if r.2 ≠ none then ((stored, clock), r.1, r.2)
    else if key r.1 ≠ key obj then
      ((stored, clock), r.1, some "MutateFn cannot mutate object name and/or object namespace")
    else ((stored ++ [stamp (clock + 1) r.1], clock + 1), stamp (clock + 1) r.1, none)
  | some existing =>
    let r := f existing
    if r.2 ≠ none then ((stored, clock), r.1, r.2)
    else if key r.1 ≠ key obj then
      ((stored, clock), r.1, some "MutateFn cannot mutate object name and/or object namespace")
    else if r.1 = existing then ((stored, clock), r.1, none)
    else ((stored.map (fun o => if key o = key obj then r.1 else o), clock), r.1, none)

/-- The key of a Deployment: namespace and name. -/
def deploymentKey (d : Deployment) : String × String :=
  (d.ObjectMeta.Namespace, d.ObjectMeta.Name)

/-- The key of a Service: namespace and name. -/
def serviceKey (svc : Service) : String × String :=
  (svc.ObjectMeta.Namespace, svc.ObjectMeta.Name)

/-- The creation timestamp the platform puts on a Deployment it creates. -/
def stampDeployment (t : Nat) (d : Deployment) : Deployment :=
  { d with ObjectMeta := { d.ObjectMeta with CreationTimestamp := { instant := t } } }

/-- The creation timestamp the platform puts on a Service it creates. -/
def stampService (t : Nat) (svc : Service) : Service :=
  { svc with ObjectMeta := { svc.ObjectMeta with CreationTimestamp := { instant := t } } }

/-- The client of the in-memory store. -/
def storeClient : Client Store where
  CreateOrUpdateDeployment := fun s obj f =>
    let r := createOrUpdate deploymentKey stampDeployment s.deployments s.clock obj f
    ({ s with deployments := r.1.1, clock := r.1.2 }, r.2)
  CreateOrUpdateService := fun s obj f =>
    let r := createOrUpdate serviceKey stampService s.services s.clock obj f
    ({ s with services := r.1.1, clock := r.1.2 }, r.2)

/-- A controller context over the in-memory store, with the owner-reference
mechanism given by `g`. -/
def storeContext (g : IronicDatabase → List OwnerReference → List OwnerReference × GoError) :
    ControllerContext Store :=
  { Client := storeClient
    SetControllerReference := ownerRefMechanism g }

/-- The in-memory store before any call. -/
def emptyStoreWorld : World Store :=
  { store := {}, calls := [] }

/-! ## Lemmas on the byte order and on sorting -/

theorem bytesLess_asymm : ∀ a b : List Nat, bytesLess a b = true → bytesLess b a = false
  | _, [] => by intro h; simp [bytesLess] at h
  | [], _ :: _ => by intro _; simp [bytesLess]
  | a :: as, b :: bs => by
    intro h
    simp only [bytesLess, Bool.or_eq_true, Bool.and_eq_true, decide_eq_true_eq] at h
    simp only [bytesLess, Bool.or_eq_false_iff, Bool.and_eq_false_iff, decide_eq_false_iff_not]
    rcases h with h | ⟨h1, h2⟩
    · exact ⟨by omega, Or.inl (by omega)⟩
    · exact ⟨by omega, Or.inr (bytesLess_asymm as bs h2)⟩

theorem bytesLess_notLess_trans :
    ∀ a b c : List Nat, bytesLess b a = false → bytesLess c b = false → bytesLess c a = false
  | [], _, c => by
    intro _ _
    cases c <;> simp [bytesLess]
  | a :: as, [], _ => by
    intro h1 _
    simp [bytesLess] at h1
  | a :: as, b :: bs, [] => by
    intro _ h2
    simp [bytesLess] at h2
  | a :: as, b :: bs, c :: cs => by
    intro h1 h2
    simp only [bytesLess, Bool.or_eq_false_iff, Bool.and_eq_false_iff,
      decide_eq_false_iff_not] at h1 h2 ⊢
    obtain ⟨h1a, h1b⟩ := h1
    obtain ⟨h2a, h2b⟩ := h2
    refine ⟨by omega, ?_⟩
    by_cases hac : a = c
    · right
      have hab : a = b := by omega
      have hbc : b = c := by omega
      have h1c : bytesLess bs as = false := by
        rcases h1b with h | h
        · exact absurd hab.symm h
        · exact h
      have h2c : bytesLess cs bs = false := by
        rcases h2b with h | h
        · exact absurd hbc.symm h
        · exact h
      exact bytesLess_notLess_trans as bs cs h1c h2c
    · left
      exact fun h => hac h.symm

theorem sortStrings_perm (xs : List String) : List.Perm (sortStrings xs) xs :=
  List.perm_insertionSort _ xs

theorem sortStrings_sorted (xs : List String) :
    List.Pairwise (fun a b => stringLess b a = false) (sortStrings xs) := by
  haveI : IsTotal String (fun a b => stringLess b a = false) :=
    ⟨fun a b => by
      cases h : stringLess b a with
      | false => exact Or.inl rfl
      | true => exact Or.inr (bytesLess_asymm _ _ h)⟩
  haveI : IsTrans String (fun a b => stringLess b a = false) :=
    ⟨fun a b c h1 h2 => bytesLess_notLess_trans _ _ _ h1 h2⟩
  exact List.sorted_insertionSort _ xs

theorem foldl_append_singleton {α β : Type} (f : α → β) (xs : List α) (acc : List β) :
    xs.foldl (fun ys x => ys ++ [f x]) acc = acc ++ xs.map f := by
  induction xs generalizing acc with
  | nil => simp
  | cons x xs ih => simp [List.foldl, ih]

theorem databasePort_toString : toString databasePort = "3306" := by
  decide

theorem buildEndpoints_eq (ips : List String) :
    buildEndpoints ips = sortStrings (ips.map (fun ip => JoinHostPort ip "3306")) := by
  simp only [buildEndpoints, databasePort_toString, foldl_append_singleton, List.nil_append]

/-! ## Lemmas on the condition scan -/

theorem scanConditions_available_iff (conds : List DeploymentCondition) (available : Bool) :
    scanConditions conds available = (IronicStatusAvailable, none) ↔
      (∀ c ∈ conds, ¬ (c.Type_ = DeploymentReplicaFailure ∧ c.Status = ConditionTrue)) ∧
      (available = true ∨
        ∃ c ∈ conds, c.Type_ = DeploymentAvailable ∧ c.Status = ConditionTrue) := by
  induction conds generalizing available with
  | nil => cases available <;> simp [scanConditions]
  | cons c rest ih =>
    by_cases hf : c.Type_ = DeploymentReplicaFailure ∧ c.Status = ConditionTrue
    · simp only [scanConditions, if_pos hf]
      constructor
      · intro h
        simp at h
      · intro h
        exact absurd hf (h.1 c (List.mem_cons_self _ _))
    · simp only [scanConditions, if_neg hf]
      rw [ih]
      constructor
      · rintro ⟨h1, h2⟩
        refine ⟨?_, ?_⟩
        · intro d hd
          rcases List.mem_cons.1 hd with hd | hd
          · rw [hd]
            exact hf
          · exact h1 d hd
        · by_cases ha : c.Type_ = DeploymentAvailable ∧ c.Status = ConditionTrue
          · exact Or.inr ⟨c, List.mem_cons_self _ _, ha⟩
          · rw [if_neg ha] at h2
            rcases h2 with h2 | ⟨d, hd, h2⟩
            · exact Or.inl h2
            · exact Or.inr ⟨d, List.mem_cons_of_mem _ hd, h2⟩
      · rintro ⟨h1, h2⟩
        refine ⟨fun d hd => h1 d (List.mem_cons_of_mem _ hd), ?_⟩
        by_cases ha : c.Type_ = DeploymentAvailable ∧ c.Status = ConditionTrue
        · rw [if_pos ha]
          exact Or.inl rfl
        · rw [if_neg ha]
          rcases h2 with h2 | ⟨d, hd, h2⟩
          · exact Or.inl h2
          · rcases List.mem_cons.1 hd with hd | hd
            · rw [hd] at h2
              exact absurd h2 ha
            · exact Or.inr ⟨d, hd, h2⟩

theorem scanConditions_status (conds : List DeploymentCondition) (available : Bool) :
    scanConditions conds available = (IronicStatusAvailable, none) ∨
      (scanConditions conds available).1 = IronicStatusProgressing := by
  induction conds generalizing available with
  | nil => cases available <;> simp [scanConditions]
  | cons c rest ih =>
    by_cases hf : c.Type_ = DeploymentReplicaFailure ∧ c.Status = ConditionTrue
    · simp [scanConditions, hf]
    · simp only [scanConditions, hf, if_false]
      exact ih _

theorem scanConditions_failure (conds : List DeploymentCondition) (available : Bool)
    (c : DeploymentCondition)
    (h : conds.find? (fun c => decide (c.Type_ = DeploymentReplicaFailure ∧
          c.Status = ConditionTrue)) = some c) :
    scanConditions conds available =
      (IronicStatusProgressing, some ("deployment failed: " ++ c.Message)) := by
  induction conds generalizing available with
  | nil => simp at h
  | cons d rest ih =>
    by_cases hf : d.Type_ = DeploymentReplicaFailure ∧ d.Status = ConditionTrue
    · have hd : d = c := by simpa [List.find?, hf] using h
      subst hd
      simp only [scanConditions, if_pos hf]
    · have hr : rest.find? (fun c => decide (c.Type_ = DeploymentReplicaFailure ∧
          c.Status = ConditionTrue)) = some c := by simpa [List.find?, hf] using h
      simp only [scanConditions, hf, if_false]
      exact ih _ hr

theorem classify_available_iff (deploy : Deployment) :
    getDeploymentStatus deploy = (IronicStatusAvailable, none) ↔
      deploy.Status.ObservedGeneration = deploy.ObjectMeta.Generation ∧
      (∀ c ∈ deploy.Status.Conditions,
        ¬ (c.Type_ = DeploymentReplicaFailure ∧ c.Status = ConditionTrue)) ∧
      (∃ c ∈ deploy.Status.Conditions,
        c.Type_ = DeploymentAvailable ∧ c.Status = ConditionTrue) := by
  unfold getDeploymentStatus
  by_cases hgen : deploy.Status.ObservedGeneration ≠ deploy.ObjectMeta.Generation
  · rw [if_pos hgen]
    refine ⟨fun h => ?_, fun h => absurd h.1 hgen⟩
    simp at h
  · rw [if_neg hgen, scanConditions_available_iff]
    simp [not_not.1 hgen]

theorem classify_status (deploy : Deployment) :
    getDeploymentStatus deploy = (IronicStatusAvailable, none) ∨
      (getDeploymentStatus deploy).1 = IronicStatusProgressing := by
  unfold getDeploymentStatus
  by_cases hgen : deploy.Status.ObservedGeneration ≠ deploy.ObjectMeta.Generation
  · rw [if_pos hgen]
    exact Or.inr rfl
  · rw [if_neg hgen]
    exact scanConditions_status _ _

/-! ## Lemmas on the convergence functions -/

theorem ensureDatabaseDeployment_available {σ : Type} (IronicOperatorLabel : String)
    (cctx : ControllerContext σ) (db : IronicDatabase) (w : World σ)
    (h : (ensureDatabaseDeployment IronicOperatorLabel cctx db w).2.1 = IronicStatusAvailable) :
    (deploymentOutcome IronicOperatorLabel cctx db w).2.2 = none ∧
    getDeploymentStatus (deploymentOutcome IronicOperatorLabel cctx db w).2.1 =
      (IronicStatusAvailable, none) ∧
    (ensureDatabaseDeployment IronicOperatorLabel cctx db w).2.2 = none := by
  unfold ensureDatabaseDeployment at h ⊢
  by_cases herr : (deploymentOutcome IronicOperatorLabel cctx db w).2.2 ≠ none
  · simp only [if_pos herr] at h
    cases h
  · simp only [if_neg herr] at h ⊢
    rcases classify_status (deploymentOutcome IronicOperatorLabel cctx db w).2.1 with hc | hc
    · exact ⟨not_not.1 herr, hc, by rw [hc]⟩
    · rw [hc] at h
      cases h

theorem ensureDatabaseService_available {σ : Type} (IronicOperatorLabel : String)
    (cctx : ControllerContext σ) (db : IronicDatabase) (w : World σ)
    (h : (ensureDatabaseService IronicOperatorLabel cctx db w).2.1 = IronicStatusAvailable) :
    (serviceOutcome IronicOperatorLabel cctx db w).2.2 = none ∧
    (serviceOutcome IronicOperatorLabel cctx db w).2.1.Spec.ClusterIPs ≠ [] ∧
    (ensureDatabaseService IronicOperatorLabel cctx db w).2.2 =
      (buildEndpoints (serviceOutcome IronicOperatorLabel cctx db w).2.1.Spec.ClusterIPs,
       none) := by
  unfold ensureDatabaseService at h ⊢
  by_cases hc : (serviceOutcome IronicOperatorLabel cctx db w).2.2 ≠ none ∨
      (serviceOutcome IronicOperatorLabel cctx db w).2.1.Spec.ClusterIPs.length = 0
  · simp only [if_pos hc] at h
    cases h
  · simp only [if_neg hc]
    refine ⟨not_not.1 (fun h1 => hc (Or.inl h1)), fun h2 => hc (Or.inr ?_), trivial⟩
    rw [h2]
    rfl

/-! ## The admission validator -/

/-- C1: `validateDatabase db old` returns a non-nil error exactly when `db.ExternalIP` is
non-empty and `db.CredentialsSecretName` is empty, whatever `old` is (absent or
present); hence `ValidateUpdate` gives the verdict of `ValidateCreate` on the same new
object, whatever the previous object is. -/
theorem validateDatabase_rejects_iff (db : IronicDatabaseSpec)
    (old : Option IronicDatabaseSpec) (r prev : IronicDatabase) :
    (validateDatabase db old ≠ none ↔ db.ExternalIP ≠ "" ∧ db.CredentialsSecretName = "") ∧
    validateDatabase db old = validateDatabase db none ∧
    ValidateUpdate r prev = ValidateCreate r := by
  refine ⟨?_, rfl, rfl⟩
  unfold validateDatabase
  split_ifs with h
  · simp [h]
  · simpa using h

/-! ## The status classifier -/

/-- C3: `getDeploymentStatus` returns `(Available, nil)` exactly when the observed
generation equals the generation, no condition is `ReplicaFailure` with status `True`,
and some condition is `Available` with status `True`; in every other case the status
it returns is `Progressing`. -/
theorem getDeploymentStatus_available_iff (deploy : Deployment) :
    (getDeploymentStatus deploy = (IronicStatusAvailable, none) ↔
      deploy.Status.ObservedGeneration = deploy.ObjectMeta.Generation ∧
      (∀ c ∈ deploy.Status.Conditions,
        ¬ (c.Type_ = DeploymentReplicaFailure ∧ c.Status = ConditionTrue)) ∧
      (∃ c ∈ deploy.Status.Conditions,
        c.Type_ = DeploymentAvailable ∧ c.Status = ConditionTrue)) ∧
    (getDeploymentStatus deploy ≠ (IronicStatusAvailable, none) →
      (getDeploymentStatus deploy).1 = IronicStatusProgressing) :=
  ⟨classify_available_iff deploy,
   fun h => (classify_status deploy).resolve_left h⟩

/-- C4: when the observed generation equals the generation and some condition is
`ReplicaFailure` with status `True`, `getDeploymentStatus` returns `Progressing` and the
error `deployment failed: ` followed by the message of the first such condition of the
list, wherever `Available` conditions stand in the list. -/
theorem getDeploymentStatus_replica_failure (deploy : Deployment)
    (hgen : deploy.Status.ObservedGeneration = deploy.ObjectMeta.Generation)
    (hfail : ∃ c ∈ deploy.Status.Conditions,
      c.Type_ = DeploymentReplicaFailure ∧ c.Status = ConditionTrue) :
    ∃ first, deploy.Status.Conditions.find? (fun c =>
        decide (c.Type_ = DeploymentReplicaFailure ∧ c.Status = ConditionTrue)) = some first ∧
      getDeploymentStatus deploy =
        (IronicStatusProgressing, some ("deployment failed: " ++ first.Message)) := by
  obtain ⟨c, hc, hcf⟩ := hfail
  cases hfind : deploy.Status.Conditions.find? (fun c =>
      decide (c.Type_ = DeploymentReplicaFailure ∧ c.Status = ConditionTrue)) with
  | none =>
    rw [List.find?_eq_none] at hfind
    exact absurd (decide_eq_true hcf) (hfind c hc)
  | some first =>
    refine ⟨first, rfl, ?_⟩
    unfold getDeploymentStatus
    rw [if_neg (not_not.2 hgen)]
    exact scanConditions_failure _ _ _ hfind

/-- Witness of C4: on `failedDeployment`, whose first replica failure comes after an
`Available` condition and before a second failure, the error carries the message of
the first failure. -/
theorem getDeploymentStatus_replica_failure_witness :
    getDeploymentStatus failedDeployment =
      (IronicStatusProgressing, some "deployment failed: quota exceeded") := by
  obtain ⟨first, hfind, hres⟩ := getDeploymentStatus_replica_failure failedDeployment
    (by decide) (by decide)
  have hfirst : first = quotaFailure := by
    have h2 : failedDeployment.Status.Conditions.find? (fun c =>
        decide (c.Type_ = DeploymentReplicaFailure ∧ c.Status = ConditionTrue)) =
        some quotaFailure := by
      decide
    rw [h2] at hfind
    exact (Option.some.inj hfind).symm
  rw [hres, hfirst]
  decide

/-- C5: when the observed generation differs from the generation,
`getDeploymentStatus` returns `(Progressing, nil)`, whatever the conditions are. -/
theorem getDeploymentStatus_not_caught_up (deploy : Deployment)
    (hgen : deploy.Status.ObservedGeneration ≠ deploy.ObjectMeta.Generation) :
    getDeploymentStatus deploy = (IronicStatusProgressing, none) := by
  unfold getDeploymentStatus
  rw [if_pos hgen]

/-- Witness of C5: `laggingFailedDeployment` (generation 2, observed 1) is classified
`(Progressing, nil)` although it carries `Available` and `ReplicaFailure` conditions. -/
theorem getDeploymentStatus_not_caught_up_witness :
    laggingFailedDeployment.Status.ObservedGeneration ≠
        laggingFailedDeployment.ObjectMeta.Generation ∧
      getDeploymentStatus laggingFailedDeployment = (IronicStatusProgressing, none) :=
  ⟨by decide, getDeploymentStatus_not_caught_up laggingFailedDeployment (by decide)⟩

/-- C6, as stated, fails: `laggingFailedDeployment` has a `ReplicaFailure` condition with
status `True`, yet, its observed generation lagging, `getDeploymentStatus` returns a nil
error with `Progressing`. -/
theorem getDeploymentStatus_failure_precedence_counterexample :
    (∃ c ∈ laggingFailedDeployment.Status.Conditions,
      c.Type_ = DeploymentReplicaFailure ∧ c.Status = ConditionTrue) ∧
    ¬ ((getDeploymentStatus laggingFailedDeployment).1 = IronicStatusProgressing ∧
       (getDeploymentStatus laggingFailedDeployment).2 ≠ none) := by
  decide

/-- C6, amended: the precedence is not-caught-up > failure > availability. For a
Deployment that has a `ReplicaFailure` condition with status `True`, the status is
`Progressing`; the error is non-nil when the observed generation equals the generation,
and nil when it differs. -/
theorem getDeploymentStatus_precedence (deploy : Deployment)
    (hfail : ∃ c ∈ deploy.Status.Conditions,
      c.Type_ = DeploymentReplicaFailure ∧ c.Status = ConditionTrue) :
    (getDeploymentStatus deploy).1 = IronicStatusProgressing ∧
    (deploy.Status.ObservedGeneration = deploy.ObjectMeta.Generation →
      (getDeploymentStatus deploy).2 ≠ none) ∧
    (deploy.Status.ObservedGeneration ≠ deploy.ObjectMeta.Generation →
      (getDeploymentStatus deploy).2 = none) := by
  by_cases hgen : deploy.Status.ObservedGeneration = deploy.ObjectMeta.Generation
  · obtain ⟨c, hc, hcf⟩ := hfail
    cases hfind : deploy.Status.Conditions.find? (fun c =>
        decide (c.Type_ = DeploymentReplicaFailure ∧ c.Status = ConditionTrue)) with
    | none =>
      rw [List.find?_eq_none] at hfind
      exact absurd (decide_eq_true hcf) (hfind c hc)
    | some first =>
      have hres : getDeploymentStatus deploy =
          (IronicStatusProgressing, some ("deployment failed: " ++ first.Message)) := by
        unfold getDeploymentStatus
        rw [if_neg (not_not.2 hgen)]
        exact scanConditions_failure _ _ _ hfind
      rw [hres]
      exact ⟨rfl, fun _ => by simp, fun h => absurd hgen h⟩
  · have hres : getDeploymentStatus deploy = (IronicStatusProgressing, none) := by
      unfold getDeploymentStatus
      rw [if_pos hgen]
    rw [hres]
    exact ⟨rfl, fun h => absurd h hgen, fun _ => rfl⟩

/-- Witness of C6, amended: `failedDeployment` (caught up) gets `Progressing` with a
non-nil error. -/
theorem getDeploymentStatus_precedence_witness :
    (getDeploymentStatus failedDeployment).1 = IronicStatusProgressing ∧
      (getDeploymentStatus failedDeployment).2 ≠ none :=
  have h := getDeploymentStatus_precedence failedDeployment (by decide)
  ⟨h.1, h.2.1 (by decide)⟩

/-! ## The endpoint list -/

/-- C7: `buildEndpoints ips` is in ascending byte-wise order (no entry is smaller than
an entry before it) and is a permutation of the addresses of `ips` each joined with port
3306, so it has the length of `ips`; on `10.0.0.5, 10.0.0.2` it is
`10.0.0.2:3306, 10.0.0.5:3306`. -/
theorem buildEndpoints_sorted_perm (ips : List String) :
    List.Pairwise (fun a b => stringLess b a = false) (buildEndpoints ips) ∧
    List.Perm (buildEndpoints ips) (ips.map (fun ip => JoinHostPort ip "3306")) ∧
    (buildEndpoints ips).length = ips.length ∧
    buildEndpoints ["10.0.0.5", "10.0.0.2"] = ["10.0.0.2:3306", "10.0.0.5:3306"] := by
  refine ⟨?_, ?_, ?_, by decide⟩
  · rw [buildEndpoints_eq]
    exact sortStrings_sorted _
  · rw [buildEndpoints_eq]
    exact sortStrings_perm _
  · rw [buildEndpoints_eq, (sortStrings_perm _).length_eq, List.length_map]

/-- C8, as stated, fails on an IPv6 literal: the one endpoint built from `fd00::1` is
`[fd00::1]:3306`, which is not `fd00::1` followed by `:3306`. -/
theorem buildEndpoints_plain_form_counterexample :
    buildEndpoints ["fd00::1"] = ["[fd00::1]:3306"] ∧
    ¬ (∀ e ∈ buildEndpoints ["fd00::1"], ∃ a ∈ ["fd00::1"], e = a ++ ":3306") := by
  decide

/-- C8, amended: every endpoint of `buildEndpoints ips` is `JoinHostPort a 3306` for
some `a` of `ips`, and every `a` of `ips` yields that endpoint; the joined form is
`a:3306` when `a` has no colon and `[a]:3306` when it has one. -/
theorem buildEndpoints_joined_form (ips : List String) :
    (∀ e ∈ buildEndpoints ips, ∃ a ∈ ips, e = JoinHostPort a "3306") ∧
    (∀ a ∈ ips, JoinHostPort a "3306" ∈ buildEndpoints ips) ∧
    (∀ a : String, 58 ∉ goBytes a → JoinHostPort a "3306" = a ++ ":3306") ∧
    (∀ a : String, 58 ∈ goBytes a → JoinHostPort a "3306" = "[" ++ a ++ "]:3306") := by
  have hmem : ∀ e, e ∈ buildEndpoints ips ↔
      e ∈ ips.map (fun ip => JoinHostPort ip "3306") := by
    intro e
    rw [buildEndpoints_eq]
    exact (sortStrings_perm _).mem_iff
  refine ⟨?_, ?_, ?_, ?_⟩
  · intro e he
    obtain ⟨a, ha, hae⟩ := List.mem_map.1 ((hmem e).1 he)
    exact ⟨a, ha, hae.symm⟩
  · intro a ha
    exact (hmem _).2 (List.mem_map.2 ⟨a, ha, rfl⟩)
  · intro a ha
    simp only [JoinHostPort, if_neg ha, String.append_assoc]
    rfl
  · intro a ha
    simp only [JoinHostPort, if_pos ha, String.append_assoc]
    rfl

/-! ## Service convergence -/

/-- C9: with `out` the answer of the store to the create-or-update of the Service: when
`out` carries an error, or carries none but the Service has no cluster address,
`ensureDatabaseService` returns `(Progressing, nil, err)` with that error; otherwise it
returns `(Available, buildEndpoints ClusterIPs, nil)`. -/
theorem ensureDatabaseService_result {σ : Type} (IronicOperatorLabel : String)
    (cctx : ControllerContext σ) (db : IronicDatabase) (w : World σ) :
    ((serviceOutcome IronicOperatorLabel cctx db w).2.2 ≠ none ∨
      (serviceOutcome IronicOperatorLabel cctx db w).2.1.Spec.ClusterIPs = [] →
      (ensureDatabaseService IronicOperatorLabel cctx db w).2 =
        (IronicStatusProgressing, [], (serviceOutcome IronicOperatorLabel cctx db w).2.2)) ∧
    (¬ ((serviceOutcome IronicOperatorLabel cctx db w).2.2 ≠ none ∨
      (serviceOutcome IronicOperatorLabel cctx db w).2.1.Spec.ClusterIPs = []) →
      (ensureDatabaseService IronicOperatorLabel cctx db w).2 =
        (IronicStatusAvailable,
          buildEndpoints (serviceOutcome IronicOperatorLabel cctx db w).2.1.Spec.ClusterIPs,
          none)) := by
  constructor
  · intro h
    have h2 : (serviceOutcome IronicOperatorLabel cctx db w).2.2 ≠ none ∨
        (serviceOutcome IronicOperatorLabel cctx db w).2.1.Spec.ClusterIPs.length = 0 := by
      rcases h with h | h
      · exact Or.inl h
      · exact Or.inr (by rw [h]; rfl)
    simp only [ensureDatabaseService, if_pos h2]
  · intro h
    have h2 : ¬ ((serviceOutcome IronicOperatorLabel cctx db w).2.2 ≠ none ∨
        (serviceOutcome IronicOperatorLabel cctx db w).2.1.Spec.ClusterIPs.length = 0) := by
      intro h3
      rcases h3 with h3 | h3
      · exact h (Or.inl h3)
      · exact h (Or.inr (List.length_eq_zero.1 h3))
    simp only [ensureDatabaseService, if_neg h2]

/-- Witness of C9, first case: the store accepts the Service but no cluster address is
assigned yet; the result is `(Progressing, nil, nil)`. -/
theorem ensureDatabaseService_result_witness :
    (ensureDatabaseService "metal3.io/ironic"
      (scriptedContext 1 availableStatus none [] none) sampleDatabase freshWorld).2 =
      (IronicStatusProgressing, [], none) :=
  (ensureDatabaseService_result "metal3.io/ironic"
    (scriptedContext 1 availableStatus none [] none) sampleDatabase freshWorld).1
    (Or.inr (by decide))

/-! ## The facade -/

/-- C2: when `ensureDatabaseDeployment` returns a non-nil error or a status other than
`Available`, `EnsureDatabase` returns that status, nil endpoints and that error, in the
world `ensureDatabaseDeployment` left: the call log has grown by the one create-or-update
of the Deployment and by no call for a Service. Otherwise `EnsureDatabase` returns what
`ensureDatabaseService` returns from that world. -/
theorem EnsureDatabase_short_circuit {σ : Type} (IronicOperatorLabel : String)
    (cctx : ControllerContext σ) (db : IronicDatabase) (w : World σ) :
    ((ensureDatabaseDeployment IronicOperatorLabel cctx db w).2.2 ≠ none ∨
      (ensureDatabaseDeployment IronicOperatorLabel cctx db w).2.1 ≠ IronicStatusAvailable →
      EnsureDatabase IronicOperatorLabel cctx db w =
        ((ensureDatabaseDeployment IronicOperatorLabel cctx db w).1,
         (ensureDatabaseDeployment IronicOperatorLabel cctx db w).2.1,
         [],
         (ensureDatabaseDeployment IronicOperatorLabel cctx db w).2.2) ∧
      (EnsureDatabase IronicOperatorLabel cctx db w).1.calls =
        w.calls ++ [StoreCall.deployment db.ObjectMeta.Namespace (deploymentName db)] ∧
      (∀ ns name, StoreCall.service ns name ∈
          (EnsureDatabase IronicOperatorLabel cctx db w).1.calls →
        StoreCall.service ns name ∈ w.calls)) ∧
    (¬ ((ensureDatabaseDeployment IronicOperatorLabel cctx db w).2.2 ≠ none ∨
      (ensureDatabaseDeployment IronicOperatorLabel cctx db w).2.1 ≠ IronicStatusAvailable) →
      EnsureDatabase IronicOperatorLabel cctx db w =
        ensureDatabaseService IronicOperatorLabel cctx db
          (ensureDatabaseDeployment IronicOperatorLabel cctx db w).1) := by
  have hcalls : (ensureDatabaseDeployment IronicOperatorLabel cctx db w).1.calls =
      w.calls ++ [StoreCall.deployment db.ObjectMeta.Namespace (deploymentName db)] := by
    unfold ensureDatabaseDeployment
    simp only [newDeployment]
    split_ifs <;> rfl
  constructor
  · intro h
    have heq : EnsureDatabase IronicOperatorLabel cctx db w =
        ((ensureDatabaseDeployment IronicOperatorLabel cctx db w).1,
         (ensureDatabaseDeployment IronicOperatorLabel cctx db w).2.1,
         [],
         (ensureDatabaseDeployment IronicOperatorLabel cctx db w).2.2) := by
      simp only [EnsureDatabase, if_pos h]
    refine ⟨heq, ?_, ?_⟩
    · rw [heq]
      exact hcalls
    · intro ns name hmem
      rw [heq] at hmem
      simp only [hcalls, List.mem_append, List.mem_singleton] at hmem
      rcases hmem with hmem | hmem
      · exact hmem
      · cases hmem
  · intro h
    simp only [EnsureDatabase, if_neg h]

/-- Witness of C2, first case: the Deployment has been submitted but reports no
availability yet; `EnsureDatabase` returns `(Progressing, nil, nil)` and the call log
holds the one call for the Deployment. -/
theorem EnsureDatabase_short_circuit_witness :
    (EnsureDatabase "metal3.io/ironic"
      (scriptedContext 1 { ObservedGeneration := 1 } none ["10.0.0.2"] none)
      sampleDatabase freshWorld).2 = (IronicStatusProgressing, [], none) ∧
    (EnsureDatabase "metal3.io/ironic"
      (scriptedContext 1 { ObservedGeneration := 1 } none ["10.0.0.2"] none)
      sampleDatabase freshWorld).1.calls = [StoreCall.deployment "metal3" "ironic-database"] :=
  have h := (EnsureDatabase_short_circuit "metal3.io/ironic"
    (scriptedContext 1 { ObservedGeneration := 1 } none ["10.0.0.2"] none)
    sampleDatabase freshWorld).1 (Or.inr (by decide))
  ⟨by rw [h.1]; decide, by rw [h.2.1]; decide⟩

/-- C10: when `EnsureDatabase` returns status `Available`, the create-or-update of the
Deployment returned no error and left a Deployment that `getDeploymentStatus` classifies
`(Available, nil)`: generations equal, an `Available` condition with status `True`, no
`ReplicaFailure` condition with status `True`. The Service the store returned has at
least one cluster address, the returned error is nil, and the returned endpoints are
non-empty: a permutation of the cluster addresses each joined with port 3306, one
entry per address. -/
theorem EnsureDatabase_available {σ : Type} (IronicOperatorLabel : String)
    (cctx : ControllerContext σ) (db : IronicDatabase) (w : World σ)
    (h : (EnsureDatabase IronicOperatorLabel cctx db w).2.1 = IronicStatusAvailable) :
    (deploymentOutcome IronicOperatorLabel cctx db w).2.2 = none ∧
    getDeploymentStatus (deploymentOutcome IronicOperatorLabel cctx db w).2.1 =
      (IronicStatusAvailable, none) ∧
    (deploymentOutcome IronicOperatorLabel cctx db w).2.1.Status.ObservedGeneration =
      (deploymentOutcome IronicOperatorLabel cctx db w).2.1.ObjectMeta.Generation ∧
    (∃ c ∈ (deploymentOutcome IronicOperatorLabel cctx db w).2.1.Status.Conditions,
      c.Type_ = DeploymentAvailable ∧ c.Status = ConditionTrue) ∧
    (∀ c ∈ (deploymentOutcome IronicOperatorLabel cctx db w).2.1.Status.Conditions,
      ¬ (c.Type_ = DeploymentReplicaFailure ∧ c.Status = ConditionTrue)) ∧
    (serviceOutcome IronicOperatorLabel cctx db
      (ensureDatabaseDeployment IronicOperatorLabel cctx db w).1).2.1.Spec.ClusterIPs ≠ [] ∧
    (EnsureDatabase IronicOperatorLabel cctx db w).2.2.2 = none ∧
    (EnsureDatabase IronicOperatorLabel cctx db w).2.2.1 ≠ [] ∧
    List.Perm (EnsureDatabase IronicOperatorLabel cctx db w).2.2.1
      ((serviceOutcome IronicOperatorLabel cctx db
        (ensureDatabaseDeployment IronicOperatorLabel cctx db w).1).2.1.Spec.ClusterIPs.map
          (fun ip => JoinHostPort ip "3306")) ∧
    (EnsureDatabase IronicOperatorLabel cctx db w).2.2.1.length =
      (serviceOutcome IronicOperatorLabel cctx db
        (ensureDatabaseDeployment IronicOperatorLabel cctx db w).1).2.1.Spec.ClusterIPs.length := by
  by_cases hs : (ensureDatabaseDeployment IronicOperatorLabel cctx db w).2.2 ≠ none ∨
      (ensureDatabaseDeployment IronicOperatorLabel cctx db w).2.1 ≠ IronicStatusAvailable
  · exfalso
    have hst : (ensureDatabaseDeployment IronicOperatorLabel cctx db w).2.1 =
        IronicStatusAvailable := by
      simpa only [EnsureDatabase, if_pos hs] using h
    rcases hs with hs | hs
    · exact hs (ensureDatabaseDeployment_available IronicOperatorLabel cctx db w hst).2.2
    · exact hs hst
  · have heq : EnsureDatabase IronicOperatorLabel cctx db w =
        ensureDatabaseService IronicOperatorLabel cctx db
          (ensureDatabaseDeployment IronicOperatorLabel cctx db w).1 := by
      simp only [EnsureDatabase, if_neg hs]
    have hst : (ensureDatabaseDeployment IronicOperatorLabel cctx db w).2.1 =
        IronicStatusAvailable := not_not.1 (fun h1 => hs (Or.inr h1))
    obtain ⟨hd1, hd2, _⟩ := ensureDatabaseDeployment_available IronicOperatorLabel cctx db w hst
    obtain ⟨hg, hnf, hav⟩ := (classify_available_iff _).1 hd2
    rw [heq] at h ⊢
    obtain ⟨_, hs2, hs3⟩ := ensureDatabaseService_available IronicOperatorLabel cctx db _ h
    have hperm := sortStrings_perm ((serviceOutcome IronicOperatorLabel cctx db
        (ensureDatabaseDeployment IronicOperatorLabel cctx db w).1).2.1.Spec.ClusterIPs.map
          (fun ip => JoinHostPort ip "3306"))
    rw [← buildEndpoints_eq] at hperm
    rw [hs3]
    refine ⟨hd1, hd2, hg, hav, hnf, hs2, rfl, ?_, hperm, ?_⟩
    · intro hnil
      have hlen := hperm.length_eq
      rw [show buildEndpoints _ = [] from hnil, List.length_nil, List.length_map] at hlen
      exact hs2 (List.length_eq_zero.1 hlen.symm)
    · rw [hperm.length_eq, List.length_map]

/-- Witness of C10: the Deployment reports availability and the Service has two
cluster addresses; `EnsureDatabase` returns `Available`, a nil error and the two
endpoints in ascending order. -/
theorem EnsureDatabase_available_witness :
    (EnsureDatabase "metal3.io/ironic"
      (scriptedContext 1 availableStatus none ["10.0.0.5", "10.0.0.2"] none)
      sampleDatabase freshWorld).2 =
        (IronicStatusAvailable, ["10.0.0.2:3306", "10.0.0.5:3306"], none) ∧
    (EnsureDatabase "metal3.io/ironic"
      (scriptedContext 1 availableStatus none ["10.0.0.5", "10.0.0.2"] none)
      sampleDatabase freshWorld).2.2.1.length = 2 :=
  have h := EnsureDatabase_available "metal3.io/ironic"
    (scriptedContext 1 availableStatus none ["10.0.0.5", "10.0.0.2"] none)
    sampleDatabase freshWorld (by decide)
  ⟨by decide, by rw [h.2.2.2.2.2.2.2.2.2]; decide⟩

/-! ## Lemmas on label maps -/

theorem find?_filter_key (kvs : List (String × String)) (k k2 : String) (h : k2 ≠ k) :
    (kvs.filter (fun p => decide (p.1 ≠ k))).find? (fun p => decide (p.1 = k2)) =
      kvs.find? (fun p => decide (p.1 = k2)) := by
  induction kvs with
  | nil => rfl
  | cons p rest ih =>
    by_cases hp : p.1 = k
    · have hp2 : ¬ p.1 = k2 := fun h2 => h (h2.symm.trans hp)
      rw [List.filter_cons_of_neg (by simpa using hp),
        List.find?_cons_of_neg _ (by simpa using hp2), ih]
    · rw [List.filter_cons_of_pos (by simpa using hp)]
      by_cases hp2 : p.1 = k2
      · rw [List.find?_cons_of_pos _ (by simpa using hp2),
          List.find?_cons_of_pos _ (by simpa using hp2)]
      · rw [List.find?_cons_of_neg _ (by simpa using hp2),
          List.find?_cons_of_neg _ (by simpa using hp2), ih]

theorem mapLookup_mapSet_self (kvs : List (String × String)) (k v : String) :
    mapLookup (some (mapSet kvs k v)) k = some v := by
  simp [mapLookup, mapSet, List.find?]

theorem mapLookup_mapSet_other (kvs : List (String × String)) (k v k2 : String) (h : k2 ≠ k) :
    mapLookup (some (mapSet kvs k v)) k2 = mapLookup (some kvs) k2 := by
  have hk : ¬ k = k2 := fun h2 => h h2.symm
  simp only [mapLookup, mapSet, List.find?, hk, decide_False]
  rw [find?_filter_key kvs k k2 h]

/-! ## The pod template -/

/-- C11: the pod template of `newDatabasePodTemplate` has no volume and no volume mount
when `Spec.TLSSecretName` is empty; when it is non-empty it has exactly one volume, a
secret volume for `Spec.TLSSecretName`, and its one container has exactly one volume
mount, which names that volume and mounts it at `/certs/mariadb`. Changing only
`TLSSecretName` changes nothing of the template but volumes and mounts. -/
theorem newDatabasePodTemplate_volumes (IronicOperatorLabel : String) (db : IronicDatabase)
    (tls : String) :
    (db.Spec.TLSSecretName = "" →
      (newDatabasePodTemplate IronicOperatorLabel db).Spec.Volumes = [] ∧
      ∀ c ∈ (newDatabasePodTemplate IronicOperatorLabel db).Spec.Containers,
        c.VolumeMounts = []) ∧
    (db.Spec.TLSSecretName ≠ "" →
      ∃ v m c, (newDatabasePodTemplate IronicOperatorLabel db).Spec.Volumes = [v] ∧
        v.VolumeSource.Secret = some { SecretName := db.Spec.TLSSecretName } ∧
        (newDatabasePodTemplate IronicOperatorLabel db).Spec.Containers = [c] ∧
        c.VolumeMounts = [m] ∧ m.Name = v.Name ∧ m.MountPath = "/certs/mariadb") ∧
    stripVolumes (newDatabasePodTemplate IronicOperatorLabel
        { db with Spec := { db.Spec with TLSSecretName := tls } }) =
      stripVolumes (newDatabasePodTemplate IronicOperatorLabel db) := by
  refine ⟨?_, ?_, ?_⟩
  · intro h
    simp [newDatabasePodTemplate, h]
  · intro h
    simp [newDatabasePodTemplate, h]
  · simp [stripVolumes, newDatabasePodTemplate, databasePasswordEnvVar]

/-- Witness of C11: with the TLS secret `ironic-tls` the template has the one secret
volume `cert-mariadb` and the one mount of it. -/
theorem newDatabasePodTemplate_volumes_witness :
    ∃ v m c, (newDatabasePodTemplate "metal3.io/ironic" tlsDatabase).Spec.Volumes = [v] ∧
      v.VolumeSource.Secret = some { SecretName := "ironic-tls" } ∧
      (newDatabasePodTemplate "metal3.io/ironic" tlsDatabase).Spec.Containers = [c] ∧
      c.VolumeMounts = [m] ∧ m.Name = v.Name ∧ m.MountPath = "/certs/mariadb" :=
  (newDatabasePodTemplate_volumes "metal3.io/ironic" tlsDatabase "").2.1 (by decide)

/-- C12, as stated, fails: with the TLS secret `ironic-tls` the template has a volume
mount for the secret, and its `ReadOnly` flag is not true. -/
theorem newDatabasePodTemplate_read_only_counterexample :
    tlsDatabase.Spec.TLSSecretName ≠ "" ∧
    ¬ (∀ c ∈ (newDatabasePodTemplate "metal3.io/ironic" tlsDatabase).Spec.Containers,
        ∀ m ∈ c.VolumeMounts, m.ReadOnly = true) ∧
    (∃ c ∈ (newDatabasePodTemplate "metal3.io/ironic" tlsDatabase).Spec.Containers,
        ∃ m ∈ c.VolumeMounts, m.Name = "cert-mariadb" ∧ m.ReadOnly = false) := by
  decide

/-- C12, amended: when `Spec.TLSSecretName` is non-empty, the container has the one
volume mount `cert-mariadb` at `/certs/mariadb`, and its `ReadOnly` flag is left at the
zero value `false`. -/
theorem newDatabasePodTemplate_mount_flag (IronicOperatorLabel : String) (db : IronicDatabase)
    (h : db.Spec.TLSSecretName ≠ "") :
    ∀ c ∈ (newDatabasePodTemplate IronicOperatorLabel db).Spec.Containers,
      c.VolumeMounts =
        [{ Name := "cert-mariadb", ReadOnly := false, MountPath := "/certs/mariadb" }] ∧
      ∀ m ∈ c.VolumeMounts, m.ReadOnly = false := by
  simp [newDatabasePodTemplate, h]

/-- Witness of C12, amended: no mount of `tlsDatabase` is read-only. -/
theorem newDatabasePodTemplate_mount_flag_witness :
    (newDatabasePodTemplate "metal3.io/ironic" tlsDatabase).Spec.Containers.all
      (fun c => c.VolumeMounts.all (fun m => !m.ReadOnly)) = true :=
  List.all_eq_true.2 (fun c hc => List.all_eq_true.2 (fun m hm => by
    rw [((newDatabasePodTemplate_mount_flag "metal3.io/ironic" tlsDatabase (by decide)) c hc).2
      m hm]
    rfl))

/-- C13: the pod template has exactly one container; its image is `Spec.Image`; its
environment is `MARIADB_PASSWORD`, with an empty literal value and a reference to key
`password` of the secret `Spec.CredentialsSecretName`, followed by
`RESTART_CONTAINER_CERTIFICATE_UPDATED` with the literal value `true`; its security
context has `Privileged` true and `RunAsNonRoot` false. -/
theorem newDatabasePodTemplate_container (IronicOperatorLabel : String)
    (db : IronicDatabase) :
    ∃ c, (newDatabasePodTemplate IronicOperatorLabel db).Spec.Containers = [c] ∧
      c.Image = db.Spec.Image ∧
      c.Env =
        [{ Name := "MARIADB_PASSWORD"
           Value := ""
           ValueFrom := some { SecretKeyRef := some { Name := db.Spec.CredentialsSecretName
                                                      Key := "password" } } },
         { Name := "RESTART_CONTAINER_CERTIFICATE_UPDATED"
           Value := "true"
           ValueFrom := none }] ∧
      c.SecurityContext = some { Privileged := some true, RunAsNonRoot := some false } :=
  ⟨_, rfl, rfl, rfl, rfl⟩

/-! ## The mutate functions -/

/-- C14: the mutate function of `ensureDatabaseDeployment` leaves `Spec.Selector` as it
was when the Deployment has a non-zero creation timestamp, whatever the database
resource is; when the creation timestamp is zero it sets the selector to the match
labels with the single pair `IronicOperatorLabel`, `ironic-database`. -/
theorem deploymentMutate_selector {σ : Type} (IronicOperatorLabel : String)
    (cctx : ControllerContext σ) (db : IronicDatabase) (deploy : Deployment) :
    (deploy.ObjectMeta.CreationTimestamp.IsZero = false →
      (deploymentMutate IronicOperatorLabel cctx db deploy).1.Spec.Selector =
        deploy.Spec.Selector) ∧
    (deploy.ObjectMeta.CreationTimestamp.IsZero = true →
      (deploymentMutate IronicOperatorLabel cctx db deploy).1.Spec.Selector =
        some { MatchLabels := some [(IronicOperatorLabel, "ironic-database")] }) := by
  constructor
  · intro h
    simp [deploymentMutate, h]
  · intro h
    simp [deploymentMutate, h, databaseAppName]

/-- Witness of C14: a stored Deployment (creation timestamp 7) whose selector matches
another label keeps that selector, although the database resource has changed. -/
theorem deploymentMutate_selector_witness :
    (deploymentMutate "metal3.io/ironic" (scriptedContext 1 availableStatus none [] none)
      tlsDatabase
      { ObjectMeta := { Name := "ironic-database", CreationTimestamp := { instant := 7 } }
        Spec := { Selector := some { MatchLabels := some [("app", "old")] } } }).1.Spec.Selector =
      some { MatchLabels := some [("app", "old")] } :=
  (deploymentMutate_selector "metal3.io/ironic" (scriptedContext 1 availableStatus none [] none)
    tlsDatabase
    { ObjectMeta := { Name := "ironic-database", CreationTimestamp := { instant := 7 } }
      Spec := { Selector := some { MatchLabels := some [("app", "old")] } } }).1 (by decide)

/-- C16: after the mutate function of `ensureDatabaseService`, whatever the labels (nil
or not) and the spec of the Service were: the label `IronicOperatorLabel` is
`ironic-database` and every other label is as before; `Spec.Selector` is the single pair
`IronicOperatorLabel`, `ironic-database`; `Spec.Ports` is the single port TCP 3306;
`Spec.Type` is `ClusterIP`; `Spec.ClusterIPs` is as before. The owner-reference
mechanism is any that acts on the owner-reference list only. -/
theorem serviceMutate_fields {σ : Type} (IronicOperatorLabel : String) (client : Client σ)
    (g : IronicDatabase → List OwnerReference → List OwnerReference × GoError)
    (db : IronicDatabase) (service : Service) :
    mapLookup (serviceMutate IronicOperatorLabel
        { Client := client, SetControllerReference := ownerRefMechanism g } db
        service).1.ObjectMeta.Labels IronicOperatorLabel = some "ironic-database" ∧
    (∀ k, k ≠ IronicOperatorLabel →
      mapLookup (serviceMutate IronicOperatorLabel
          { Client := client, SetControllerReference := ownerRefMechanism g } db
          service).1.ObjectMeta.Labels k = mapLookup service.ObjectMeta.Labels k) ∧
    (serviceMutate IronicOperatorLabel
        { Client := client, SetControllerReference := ownerRefMechanism g } db
        service).1.Spec.Selector = some [(IronicOperatorLabel, "ironic-database")] ∧
    (serviceMutate IronicOperatorLabel
        { Client := client, SetControllerReference := ownerRefMechanism g } db
        service).1.Spec.Ports = [{ Protocol := "TCP", Port := 3306 }] ∧
    (serviceMutate IronicOperatorLabel
        { Client := client, SetControllerReference := ownerRefMechanism g } db
        service).1.Spec.Type_ = "ClusterIP" ∧
    (serviceMutate IronicOperatorLabel
        { Client := client, SetControllerReference := ownerRefMechanism g } db
        service).1.Spec.ClusterIPs = service.Spec.ClusterIPs := by
  refine ⟨?_, ?_, rfl, rfl, rfl, rfl⟩
  · simp only [serviceMutate, ownerRefMechanism]
    exact mapLookup_mapSet_self _ _ _
  · intro k hk
    simp only [serviceMutate, ownerRefMechanism]
    rw [mapLookup_mapSet_other _ _ _ _ hk]
    cases service.ObjectMeta.Labels <;> rfl

/-! ## Removal and naming -/

/-- C17: `RemoveDatabase` returns a nil error and leaves the world as it was: the same
store and not one more call in the log. -/
theorem RemoveDatabase_noop {σ : Type} (cctx : ControllerContext σ) (db : IronicDatabase)
    (w : World σ) :
    (RemoveDatabase cctx db w).2 = none ∧
    (RemoveDatabase cctx db w).1.store = w.store ∧
    (RemoveDatabase cctx db w).1.calls = w.calls :=
  ⟨rfl, rfl, rfl⟩

/-- C18, the code at the failing input: for the database resource named `ironic` in
namespace `metal3`, `ensureDatabaseService` issues its create-or-update for the Service
`ironic-database`, which is not `DatabaseServiceName`. -/
theorem ensureDatabaseService_name_divergence :
    (newService sampleDatabase).ObjectMeta.Name = "ironic-database" ∧
    (newService sampleDatabase).ObjectMeta.Name ≠ DatabaseServiceName ∧
    (ensureDatabaseService "metal3.io/ironic" (storeContext upsertOwners) sampleDatabase
      emptyStoreWorld).1.calls = [StoreCall.service "metal3" "ironic-database"] ∧
    (ensureDatabaseService "metal3.io/ironic" (storeContext upsertOwners) sampleDatabase
      emptyStoreWorld).1.store.services.map (fun svc => svc.ObjectMeta.Name) =
        ["ironic-database"] := by
  decide

/-- C19: the labels that `newDatabasePodTemplate` puts on the pod template, the match
labels that the mutate function of `ensureDatabaseDeployment` sets on a Deployment with
a zero creation timestamp, and the selector that the mutate function of
`ensureDatabaseService` sets are the same map, the single pair `IronicOperatorLabel`,
`ironic-database`, for every database resource; so both selectors match the template. -/
theorem selectors_match_template {σ : Type} (IronicOperatorLabel : String)
    (cctx : ControllerContext σ) (db : IronicDatabase) (deploy : Deployment)
    (service : Service) :
    (newDatabasePodTemplate IronicOperatorLabel db).ObjectMeta.Labels =
      some [(IronicOperatorLabel, "ironic-database")] ∧
    (deploy.ObjectMeta.CreationTimestamp.IsZero = true →
      (deploymentMutate IronicOperatorLabel cctx db deploy).1.Spec.Selector =
        some { MatchLabels := (newDatabasePodTemplate IronicOperatorLabel db).ObjectMeta.Labels }) ∧
    (serviceMutate IronicOperatorLabel cctx db service).1.Spec.Selector =
      (newDatabasePodTemplate IronicOperatorLabel db).ObjectMeta.Labels ∧
    mapLookup (newDatabasePodTemplate IronicOperatorLabel db).ObjectMeta.Labels
      IronicOperatorLabel = some "ironic-database" := by
  refine ⟨rfl, ?_, rfl, ?_⟩
  · intro h
    simp [deploymentMutate, h, newDatabasePodTemplate]
  · simp [mapLookup, newDatabasePodTemplate, databaseAppName]

/-- Witness of C19: a new Deployment (zero creation timestamp) gets the labels of the
pod template as its match labels. -/
theorem selectors_match_template_witness :
    (deploymentMutate "metal3.io/ironic" (storeContext upsertOwners) tlsDatabase
      (newDeployment tlsDatabase)).1.Spec.Selector =
      some { MatchLabels :=
        (newDatabasePodTemplate "metal3.io/ironic" tlsDatabase).ObjectMeta.Labels } :=
  (selectors_match_template "metal3.io/ironic" (storeContext upsertOwners) tlsDatabase
    (newDeployment tlsDatabase) {}).2.1 (by decide)

/-! ## Lemmas on the owner-reference upsert and on create-or-update -/

theorem referSameObject_controllerRef (db : IronicDatabase) :
    referSameObject (controllerRef db) (controllerRef db) = true := by
  have hp : parseGroup (controllerRef db).APIVersion = some "metal3.io" := by
    show parseGroup "metal3.io/v1alpha1" = some "metal3.io"
    decide
  simp [referSameObject, hp]

theorem upsertOwnerRef_idem (ref : OwnerReference) (h : referSameObject ref ref = true)
    (owners : List OwnerReference) :
    upsertOwnerRef ref (upsertOwnerRef ref owners) = upsertOwnerRef ref owners := by
  induction owners with
  | nil => simp [upsertOwnerRef, h]
  | cons r rest ih =>
    by_cases hr : referSameObject r ref = true
    · simp [upsertOwnerRef, hr, h]
    · simp [upsertOwnerRef, hr, ih]

theorem upsertOwners_idem (db : IronicDatabase) (owners : List OwnerReference) :
    upsertOwners db (upsertOwners db owners).1 = upsertOwners db owners := by
  simp only [upsertOwners]
  rw [upsertOwnerRef_idem _ (referSameObject_controllerRef db)]

theorem find?_map_replace {α : Type} (p : α → Bool) (y : α) (hy : p y = true)
    (l : List α) (e : α) (h : l.find? p = some e) :
    (l.map (fun o => if p o = true then y else o)).find? p = some y := by
  induction l with
  | nil => simp at h
  | cons a rest ih =>
    by_cases ha : p a = true
    · rw [List.map_cons, if_pos ha, List.find?_cons_of_pos _ hy]
    · rw [List.map_cons, if_neg ha, List.find?_cons_of_neg _ ha]
      rw [List.find?_cons_of_neg _ ha] at h
      exact ih h

theorem createOrUpdate_stored {α : Type} [DecidableEq α] (key : α → String × String)
    (stamp : Nat → α → α) (stored : List α) (clock : Nat) (obj : α) (f : α → α × GoError)
    (hkey : ∀ t x, key (stamp t x) = key x)
    (hidem : ∀ x, (f x).2 = none → f (f x).1 = ((f x).1, none))
    (hstamp : ∀ x n, (f x).2 = none → f (stamp (n + 1) (f x).1) = (stamp (n + 1) (f x).1, none))
    (herr : (createOrUpdate key stamp stored clock obj f).2.2 = none) :
    (createOrUpdate key stamp stored clock obj f).1.1.find? (fun o => decide (key o = key obj)) =
      some (createOrUpdate key stamp stored clock obj f).2.1 ∧
    f (createOrUpdate key stamp stored clock obj f).2.1 =
      ((createOrUpdate key stamp stored clock obj f).2.1, none) := by
  unfold createOrUpdate at herr ⊢
  cases hfind : stored.find? (fun o => decide (key o = key obj)) with
  | none =>
    simp only [hfind] at herr ⊢
    by_cases h1 : (f obj).2 ≠ none
    · simp only [if_pos h1] at herr
      exact absurd herr h1
    · by_cases h2 : key (f obj).1 ≠ key obj
      · simp only [if_neg h1, if_pos h2] at herr
        cases herr
      · simp only [if_neg h1, if_neg h2]
        refine ⟨?_, hstamp obj clock (not_not.1 h1)⟩
        rw [List.find?_append, hfind]
        have hk : key (stamp (clock + 1) (f obj).1) = key obj := by
          rw [hkey]
          exact not_not.1 h2
        simp [List.find?, hk]
  | some existing =>
    simp only [hfind] at herr ⊢
    by_cases h1 : (f existing).2 ≠ none
    · simp only [if_pos h1] at herr
      exact absurd herr h1
    · by_cases h2 : key (f existing).1 ≠ key obj
      · simp only [if_neg h1, if_pos h2] at herr
        cases herr
      · by_cases h3 : (f existing).1 = existing
        · simp only [if_neg h1, if_neg h2, if_pos h3]
          refine ⟨?_, hidem existing (not_not.1 h1)⟩
          rw [hfind, h3]
        · simp only [if_neg h1, if_neg h2, if_neg h3]
          refine ⟨?_, hidem existing (not_not.1 h1)⟩
          have hy : (fun o => decide (key o = key obj)) (f existing).1 = true := by
            simpa using h2
          have hrep := find?_map_replace (fun o => decide (key o = key obj)) (f existing).1 hy
            stored existing hfind
          simpa using hrep

theorem createOrUpdate_found_fixed {α : Type} [DecidableEq α] (key : α → String × String)
    (stamp : Nat → α → α) (stored : List α) (clock : Nat) (obj : α) (f : α → α × GoError)
    (e : α) (hfind : stored.find? (fun o => decide (key o = key obj)) = some e)
    (hfix : f e = (e, none)) :
    createOrUpdate key stamp stored clock obj f = ((stored, clock), e, none) := by
  have hk : key e = key obj := by
    have := List.find?_some hfind
    simpa using this
  unfold createOrUpdate
  simp only [hfind, hfix, hk, ne_eq, not_true_eq_false, if_false, if_true]

theorem createOrUpdate_again {α : Type} [DecidableEq α] (key : α → String × String)
    (stamp : Nat → α → α) (stored : List α) (clock : Nat) (obj : α) (f : α → α × GoError)
    (hkey : ∀ t x, key (stamp t x) = key x)
    (hidem : ∀ x, (f x).2 = none → f (f x).1 = ((f x).1, none))
    (hstamp : ∀ x n, (f x).2 = none → f (stamp (n + 1) (f x).1) = (stamp (n + 1) (f x).1, none)) :
    createOrUpdate key stamp (createOrUpdate key stamp stored clock obj f).1.1
        (createOrUpdate key stamp stored clock obj f).1.2 obj f =
      createOrUpdate key stamp stored clock obj f := by
  by_cases herr : (createOrUpdate key stamp stored clock obj f).2.2 = none
  · obtain ⟨hf, hfix⟩ := createOrUpdate_stored key stamp stored clock obj f hkey hidem hstamp herr
    rw [createOrUpdate_found_fixed key stamp _ _ obj f _ hf hfix, ← herr]
  · have hsame : (createOrUpdate key stamp stored clock obj f).1 = (stored, clock) := by
      unfold createOrUpdate at herr ⊢
      cases hfind : stored.find? (fun o => decide (key o = key obj)) with
      | none =>
        simp only [hfind] at herr ⊢
        split_ifs at herr ⊢ <;> first | rfl | exact absurd rfl herr
      | some existing =>
        simp only [hfind] at herr ⊢
        split_ifs at herr ⊢ <;> first | rfl | exact absurd rfl herr
    rw [hsame]

theorem deploymentMutate_eq {σ : Type} (IronicOperatorLabel : String) (client : Client σ)
    (g : IronicDatabase → List OwnerReference → List OwnerReference × GoError)
    (db : IronicDatabase) (d : Deployment) :
    deploymentMutate IronicOperatorLabel
        { Client := client, SetControllerReference := ownerRefMechanism g } db d =
      ({ ObjectMeta := { d.ObjectMeta with
                         OwnerReferences := (g db d.ObjectMeta.OwnerReferences).1 }
         Spec := { Selector :=
                     if d.ObjectMeta.CreationTimestamp.IsZero = true then
                       some { MatchLabels := some [(IronicOperatorLabel, databaseAppName)] }
                     else d.Spec.Selector
                   Template := newDatabasePodTemplate IronicOperatorLabel db }
         Status := d.Status },
       (g db d.ObjectMeta.OwnerReferences).2) := by
  unfold deploymentMutate ownerRefMechanism
  cases h : d.ObjectMeta.CreationTimestamp.IsZero <;> simp

theorem deploymentMutate_idem {σ : Type} (IronicOperatorLabel : String) (client : Client σ)
    (g : IronicDatabase → List OwnerReference → List OwnerReference × GoError)
    (db : IronicDatabase) (hg : ∀ owners, g db (g db owners).1 = g db owners)
    (d : Deployment) :
    deploymentMutate IronicOperatorLabel
        { Client := client, SetControllerReference := ownerRefMechanism g } db
        (deploymentMutate IronicOperatorLabel
          { Client := client, SetControllerReference := ownerRefMechanism g } db d).1 =
      deploymentMutate IronicOperatorLabel
        { Client := client, SetControllerReference := ownerRefMechanism g } db d := by
  rw [deploymentMutate_eq IronicOperatorLabel client g db d, deploymentMutate_eq]
  simp only [hg]
  cases h : d.ObjectMeta.CreationTimestamp.IsZero <;> simp

theorem deploymentMutate_stamp {σ : Type} (IronicOperatorLabel : String) (client : Client σ)
    (g : IronicDatabase → List OwnerReference → List OwnerReference × GoError)
    (db : IronicDatabase) (hg : ∀ owners, g db (g db owners).1 = g db owners)
    (d : Deployment) (n : Nat) :
    deploymentMutate IronicOperatorLabel
        { Client := client, SetControllerReference := ownerRefMechanism g } db
        (stampDeployment (n + 1) (deploymentMutate IronicOperatorLabel
          { Client := client, SetControllerReference := ownerRefMechanism g } db d).1) =
      (stampDeployment (n + 1) (deploymentMutate IronicOperatorLabel
          { Client := client, SetControllerReference := ownerRefMechanism g } db d).1,
       (deploymentMutate IronicOperatorLabel
          { Client := client, SetControllerReference := ownerRefMechanism g } db d).2) := by
  rw [deploymentMutate_eq IronicOperatorLabel client g db d, deploymentMutate_eq]
  simp [stampDeployment, hg, Time.IsZero]

theorem storeClient_again (s : Store) (obj : Deployment) (f : Deployment → Deployment × GoError)
    (h : createOrUpdate deploymentKey stampDeployment
        (createOrUpdate deploymentKey stampDeployment s.deployments s.clock obj f).1.1
        (createOrUpdate deploymentKey stampDeployment s.deployments s.clock obj f).1.2 obj f =
      createOrUpdate deploymentKey stampDeployment s.deployments s.clock obj f) :
    storeClient.CreateOrUpdateDeployment (storeClient.CreateOrUpdateDeployment s obj f).1 obj f =
      storeClient.CreateOrUpdateDeployment s obj f := by
  have e : ∀ s : Store, storeClient.CreateOrUpdateDeployment s obj f =
      (Store.mk (createOrUpdate deploymentKey stampDeployment s.deployments s.clock obj f).1.1
        s.services (createOrUpdate deploymentKey stampDeployment s.deployments s.clock obj f).1.2,
       (createOrUpdate deploymentKey stampDeployment s.deployments s.clock obj f).2) :=
    fun _ => rfl
  rw [e s, e]
  dsimp only
  rw [h]

theorem deploymentOutcome_stored (IronicOperatorLabel : String)
    (g : IronicDatabase → List OwnerReference → List OwnerReference × GoError)
    (db : IronicDatabase) (hg : ∀ owners, g db (g db owners).1 = g db owners)
    (w : World Store)
    (herr : (deploymentOutcome IronicOperatorLabel (storeContext g) db w).2.2 = none) :
    (deploymentOutcome IronicOperatorLabel (storeContext g) db w).1.deployments.find?
        (fun o => decide (deploymentKey o = deploymentKey (newDeployment db))) =
      some (deploymentOutcome IronicOperatorLabel (storeContext g) db w).2.1 ∧
    deploymentMutate IronicOperatorLabel (storeContext g) db
        (deploymentOutcome IronicOperatorLabel (storeContext g) db w).2.1 =
      ((deploymentOutcome IronicOperatorLabel (storeContext g) db w).2.1, none) := by
  have hidem : ∀ x, (deploymentMutate IronicOperatorLabel (storeContext g) db x).2 = none →
      deploymentMutate IronicOperatorLabel (storeContext g) db
          (deploymentMutate IronicOperatorLabel (storeContext g) db x).1 =
        ((deploymentMutate IronicOperatorLabel (storeContext g) db x).1, none) := by
    intro x hx
    have h := deploymentMutate_idem IronicOperatorLabel storeClient g db hg x
    exact h.trans (Prod.ext rfl hx)
  have hstamp : ∀ x n, (deploymentMutate IronicOperatorLabel (storeContext g) db x).2 = none →
      deploymentMutate IronicOperatorLabel (storeContext g) db
          (stampDeployment (n + 1)
            (deploymentMutate IronicOperatorLabel (storeContext g) db x).1) =
        (stampDeployment (n + 1)
            (deploymentMutate IronicOperatorLabel (storeContext g) db x).1, none) := by
    intro x n hx
    have h := deploymentMutate_stamp IronicOperatorLabel storeClient g db hg x n
    exact h.trans (Prod.ext rfl hx)
  exact createOrUpdate_stored deploymentKey stampDeployment w.store.deployments w.store.clock
    (newDeployment db) (deploymentMutate IronicOperatorLabel (storeContext g) db)
    (fun _ _ => rfl) hidem hstamp herr

theorem deploymentOutcome_again (IronicOperatorLabel : String)
    (g : IronicDatabase → List OwnerReference → List OwnerReference × GoError)
    (db : IronicDatabase) (hg : ∀ owners, g db (g db owners).1 = g db owners)
    (w : World Store) (calls : List StoreCall) :
    deploymentOutcome IronicOperatorLabel (storeContext g) db
        { store := (deploymentOutcome IronicOperatorLabel (storeContext g) db w).1
          calls := calls } =
      deploymentOutcome IronicOperatorLabel (storeContext g) db w := by
  have hidem : ∀ x, (deploymentMutate IronicOperatorLabel (storeContext g) db x).2 = none →
      deploymentMutate IronicOperatorLabel (storeContext g) db
          (deploymentMutate IronicOperatorLabel (storeContext g) db x).1 =
        ((deploymentMutate IronicOperatorLabel (storeContext g) db x).1, none) := by
    intro x hx
    have h := deploymentMutate_idem IronicOperatorLabel storeClient g db hg x
    exact h.trans (Prod.ext rfl hx)
  have hstamp : ∀ x n, (deploymentMutate IronicOperatorLabel (storeContext g) db x).2 = none →
      deploymentMutate IronicOperatorLabel (storeContext g) db
          (stampDeployment (n + 1)
            (deploymentMutate IronicOperatorLabel (storeContext g) db x).1) =
        (stampDeployment (n + 1)
            (deploymentMutate IronicOperatorLabel (storeContext g) db x).1, none) := by
    intro x n hx
    have h := deploymentMutate_stamp IronicOperatorLabel storeClient g db hg x n
    exact h.trans (Prod.ext rfl hx)
  have hagain := createOrUpdate_again deploymentKey stampDeployment w.store.deployments
    w.store.clock (newDeployment db) (deploymentMutate IronicOperatorLabel (storeContext g) db)
    (fun _ _ => rfl) hidem hstamp
  exact storeClient_again w.store (newDeployment db)
    (deploymentMutate IronicOperatorLabel (storeContext g) db) hagain

/-! ## Idempotence of the Deployment convergence -/

/-- C15: with the owner-reference attachment an idempotent action `g` on the
owner-reference list (an upsert of the controller reference of `db`), the mutate
function of `ensureDatabaseDeployment` applied twice to a Deployment gives the object
and error it gives applied once. Hence, over the in-memory store, where nothing
changes between the calls, a second `ensureDatabaseDeployment` with the same `db`
leaves the store as the first call left it and returns the same status and error; and
when the first submission returned no error, the object under the Deployment's key is
the one the first call left, and the mutate function maps it to itself, so the object
submitted the second time equals the stored one. -/
theorem ensureDatabaseDeployment_idempotent {σ : Type} (IronicOperatorLabel : String)
    (client : Client σ)
    (g : IronicDatabase → List OwnerReference → List OwnerReference × GoError)
    (db : IronicDatabase) (deploy : Deployment) (w : World Store)
    (hg : ∀ owners, g db (g db owners).1 = g db owners) :
    deploymentMutate IronicOperatorLabel
        { Client := client, SetControllerReference := ownerRefMechanism g } db
        (deploymentMutate IronicOperatorLabel
          { Client := client, SetControllerReference := ownerRefMechanism g } db deploy).1 =
      deploymentMutate IronicOperatorLabel
        { Client := client, SetControllerReference := ownerRefMechanism g } db deploy ∧
    (ensureDatabaseDeployment IronicOperatorLabel (storeContext g) db
        (ensureDatabaseDeployment IronicOperatorLabel (storeContext g) db w).1).1.store =
      (ensureDatabaseDeployment IronicOperatorLabel (storeContext g) db w).1.store ∧
    (ensureDatabaseDeployment IronicOperatorLabel (storeContext g) db
        (ensureDatabaseDeployment IronicOperatorLabel (storeContext g) db w).1).2 =
      (ensureDatabaseDeployment IronicOperatorLabel (storeContext g) db w).2 ∧
    ((deploymentOutcome IronicOperatorLabel (storeContext g) db w).2.2 = none →
      (ensureDatabaseDeployment IronicOperatorLabel (storeContext g) db w).1.store.deployments.find?
          (fun o => decide (deploymentKey o = deploymentKey (newDeployment db))) =
        some (deploymentOutcome IronicOperatorLabel (storeContext g) db w).2.1 ∧
      deploymentMutate IronicOperatorLabel (storeContext g) db
          (deploymentOutcome IronicOperatorLabel (storeContext g) db w).2.1 =
        ((deploymentOutcome IronicOperatorLabel (storeContext g) db w).2.1, none)) := by
  have hstore : (ensureDatabaseDeployment IronicOperatorLabel (storeContext g) db w).1 =
      { store := (deploymentOutcome IronicOperatorLabel (storeContext g) db w).1
        calls := w.calls ++ [StoreCall.deployment (newDeployment db).ObjectMeta.Namespace
          (newDeployment db).ObjectMeta.Name] } := by
    simp only [ensureDatabaseDeployment]
    split_ifs <;> rfl
  have hout := deploymentOutcome_again IronicOperatorLabel g db hg w
    (w.calls ++ [StoreCall.deployment (newDeployment db).ObjectMeta.Namespace
      (newDeployment db).ObjectMeta.Name])
  refine ⟨deploymentMutate_idem IronicOperatorLabel client g db hg deploy, ?_, ?_, ?_⟩
  · rw [hstore]
    simp only [ensureDatabaseDeployment, hout]
    split_ifs <;> rfl
  · rw [hstore]
    simp only [ensureDatabaseDeployment, hout]
    split_ifs <;> rfl
  · intro herr
    rw [hstore]
    exact deploymentOutcome_stored IronicOperatorLabel g db hg w herr

/-- Witness of C15: on the empty in-memory store, with the upsert of controller-runtime,
the second convergence of `sampleDatabase` leaves the one stored Deployment as it is and
returns `Progressing` with a nil error, as the first did. -/
theorem ensureDatabaseDeployment_idempotent_witness :
    (ensureDatabaseDeployment "metal3.io/ironic" (storeContext upsertOwners) sampleDatabase
        (ensureDatabaseDeployment "metal3.io/ironic" (storeContext upsertOwners) sampleDatabase
          emptyStoreWorld).1).1.store =
      (ensureDatabaseDeployment "metal3.io/ironic" (storeContext upsertOwners) sampleDatabase
        emptyStoreWorld).1.store ∧
    (ensureDatabaseDeployment "metal3.io/ironic" (storeContext upsertOwners) sampleDatabase
        emptyStoreWorld).1.store.deployments.length = 1 ∧
    (ensureDatabaseDeployment "metal3.io/ironic" (storeContext upsertOwners) sampleDatabase
        (ensureDatabaseDeployment "metal3.io/ironic" (storeContext upsertOwners) sampleDatabase
          emptyStoreWorld).1).2 = (IronicStatusProgressing, none) :=
  have h := ensureDatabaseDeployment_idempotent "metal3.io/ironic" storeClient upsertOwners
    sampleDatabase (newDeployment sampleDatabase) emptyStoreWorld
    (upsertOwners_idem sampleDatabase)
  ⟨h.2.1, by decide, by rw [h.2.2.1]; decide⟩

/-! ## Errors of the facade -/

theorem ensureDatabaseDeployment_error {σ : Type} (IronicOperatorLabel : String)
    (cctx : ControllerContext σ) (db : IronicDatabase) (w : World σ)
    (h : (ensureDatabaseDeployment IronicOperatorLabel cctx db w).2.2 ≠ none) :
    (ensureDatabaseDeployment IronicOperatorLabel cctx db w).2.1 = IronicStatusProgressing := by
  simp only [ensureDatabaseDeployment] at h ⊢
  split_ifs at h ⊢ with herr
  · rfl
  · rcases classify_status (deploymentOutcome IronicOperatorLabel cctx db w).2.1 with hc | hc
    · rw [hc] at h
      exact absurd rfl h
    · exact hc

theorem ensureDatabaseService_error {σ : Type} (IronicOperatorLabel : String)
    (cctx : ControllerContext σ) (db : IronicDatabase) (w : World σ)
    (h : (ensureDatabaseService IronicOperatorLabel cctx db w).2.2.2 ≠ none) :
    (ensureDatabaseService IronicOperatorLabel cctx db w).2.1 = IronicStatusProgressing ∧
    (ensureDatabaseService IronicOperatorLabel cctx db w).2.2.1 = [] := by
  simp only [ensureDatabaseService] at h ⊢
  split_ifs at h ⊢ with hc
  · exact ⟨rfl, rfl⟩
  · exact absurd rfl h

/-- C20: whenever `EnsureDatabase` returns a non-nil error, be it from the submission
of the Deployment, from a replica failure found by `getDeploymentStatus` or from the
submission of the Service, the status it returns is `Progressing` and the endpoint list
is nil; and the status is `Progressing` or `Available` in every case. -/
theorem EnsureDatabase_error_progressing {σ : Type} (IronicOperatorLabel : String)
    (cctx : ControllerContext σ) (db : IronicDatabase) (w : World σ) :
    ((EnsureDatabase IronicOperatorLabel cctx db w).2.2.2 ≠ none →
      (EnsureDatabase IronicOperatorLabel cctx db w).2.1 = IronicStatusProgressing ∧
      (EnsureDatabase IronicOperatorLabel cctx db w).2.2.1 = []) ∧
    ((EnsureDatabase IronicOperatorLabel cctx db w).2.1 = IronicStatusProgressing ∨
      (EnsureDatabase IronicOperatorLabel cctx db w).2.1 = IronicStatusAvailable) := by
  constructor
  · intro h
    by_cases hs : (ensureDatabaseDeployment IronicOperatorLabel cctx db w).2.2 ≠ none ∨
        (ensureDatabaseDeployment IronicOperatorLabel cctx db w).2.1 ≠ IronicStatusAvailable
    · simp only [EnsureDatabase, if_pos hs] at h ⊢
      exact ⟨ensureDatabaseDeployment_error IronicOperatorLabel cctx db w h, trivial⟩
    · simp only [EnsureDatabase, if_neg hs] at h ⊢
      exact ensureDatabaseService_error IronicOperatorLabel cctx db _ h
  · cases (EnsureDatabase IronicOperatorLabel cctx db w).2.1
    · exact Or.inl rfl
    · exact Or.inr rfl

/-- Witness of C20: the Deployment is submitted but its status reports a replica
failure; `EnsureDatabase` returns `Progressing`, nil endpoints and the failure. -/
theorem EnsureDatabase_error_progressing_witness :
    (EnsureDatabase "metal3.io/ironic"
      (scriptedContext 1 failedDeployment.Status none ["10.0.0.2"] none)
      sampleDatabase freshWorld).2 =
        (IronicStatusProgressing, [], some "deployment failed: quota exceeded") :=
  have h := (EnsureDatabase_error_progressing "metal3.io/ironic"
    (scriptedContext 1 failedDeployment.Status none ["10.0.0.2"] none)
    sampleDatabase freshWorld).1 (by decide)
  Prod.ext h.1 (Prod.ext h.2 (by decide))

end Ironic
